import Mathlib

/-!
Verification of the DogMatch hybrid inference pipeline
(`backend/dogmatch_predictor.py` and the `top_k` handling of
`backend/app.py`).

Shallow embedding conventions:
* Python floats are idealised as exact rationals (`ℚ`).
* A pandas single-row DataFrame is an association list from column name to
  value (`Row`); a cell holds either a number or a string (`Value`).
* The pre-trained artifacts (classifier, similarity index, robust scaler,
  label encoders, catalog arrays) are opaque capabilities stored in
  `PredictorState`; theorems constrain them through the interface contract
  of spec section 6 (e.g. `kneighbors` returns ascending distances).
* Python's `round(x, d)` is banker's rounding (`bankersRound`, half to
  even) applied at `d` decimal digits.
* Effectful failure (`raise`) is an `Except` value; which model
  capabilities were invoked is recorded in an explicit `Capability` trace,
  mirroring the source's control flow (a validation error returns before
  the lines that query the classifier or the similarity index).
-/

/-- A cell of the user's single-row DataFrame: a number or a string. -/
inductive Value where
  | num (q : ℚ)
  | str (s : String)
deriving DecidableEq, Repr

/-- `True` on numeric cells; mirrors `float(x)` succeeding in
`_validate_input` (string cells are treated as non-convertible). -/
def Value.isNum : Value → Bool
  | num _ => true
  | str _ => false

/-- Numeric content of a cell, defaulting to `0`; only applied at pipeline
stages where the source guarantees the cell is numeric. -/
def Value.toQD : Value → ℚ
  | num q => q
  | str _ => 0

/-- Numeric content of a cell, if any. -/
def Value.getNum? : Value → Option ℚ
  | num q => some q
  | str _ => none

/-- A single-row DataFrame / input dict: column name ↦ cell. -/
abbrev Row := List (String × Value)

/-- First-match association lookup (dict / DataFrame column access). -/
def alookup {α β : Type} [DecidableEq α] (k : α) : List (α × β) → Option β
  | [] => none
  | (a, b) :: rest => if a = k then some b else alookup k rest

/-- `user_df[col] = v`: overwrite the column if present, else append it
(pandas creates a new column at the end). -/
def setVal (row : Row) (c : String) (v : Value) : Row :=
  if (alookup c row).isSome then
    row.map (fun p => if p.1 = c then (c, v) else p)
  else row ++ [(c, v)]

/-- Python's `round` to an integer: round half to even. -/
def bankersRound (q : ℚ) : ℤ :=
  if q - (⌊q⌋ : ℚ) < 1 / 2 then ⌊q⌋
  else if (1 : ℚ) / 2 < q - (⌊q⌋ : ℚ) then ⌊q⌋ + 1
  else if ⌊q⌋ % 2 = 0 then ⌊q⌋ else ⌊q⌋ + 1

/-- Python's `round(q, d)`. -/
def roundTo (d : ℕ) (q : ℚ) : ℚ :=
  ((bankersRound (q * (10 : ℚ) ^ d) : ℤ) : ℚ) / (10 : ℚ) ^ d

/-- A capability invocation of a pre-trained model artifact. -/
inductive Capability where
  | clfProba
  | knnQuery
deriving DecidableEq, Repr

/-- The error taxonomy raised by `predict` (the source raises `ValueError`
with distinguishing messages; the outer handler re-wraps preserving the
message, so the payload survives to the caller). -/
inductive PredictError where
  | missingFeature (cols : List String)
  | invalidType (col : String)
  | invalidCategory (col : String) (value : Value) (allowed : List String)
  | internalKeyError (col : String)
deriving DecidableEq, Repr

/-- One breed suggestion produced by `_find_similar_breeds`. -/
structure Suggestion where
  breed : String
  group : Option String
  similarity : ℚ
  rank : ℕ
deriving DecidableEq, Repr

/-- One grouped prediction produced by `_generate_group_predictions`. -/
structure GroupPred where
  group : String
  score : ℚ
  rank : ℕ
deriving DecidableEq, Repr

/-- The result dict assembled at the end of `predict`. -/
structure PredictResult where
  predictions : List Suggestion
  similar_breeds : List Suggestion
  user_profile : List (String × ℚ)
  predictions_grouped : List GroupPred
deriving DecidableEq, Repr

/-- The loaded `DogMatchPredictor`: schema, catalog arrays and the opaque
pre-trained capabilities.  `label_encoders` maps a categorical column to
its ordered vocabulary (`classes_`); encoding a value is its index there.
`n_rows` is `len(self.X_enhanced)`; `knn` is
`self.similarity_model.kneighbors` returning (distance, row-index) pairs;
`clf_proba` is `self.model.predict_proba` on the processed row;
`scaler_center`/`scaler_scale` are the per-column frozen parameters of the
fitted `RobustScaler` (arrays aligned positionally to `numeric_columns`,
keyed here by column name). -/
structure PredictorState where
  feature_columns : List String
  categorical_columns : List String
  numeric_columns : List String
  breed_names : List String
  group_labels : List String
  breed_labels : List String
  y_processed : List String
  label_encoders : List (String × List String)
  scaler_center : String → ℚ
  scaler_scale : String → ℚ
  supports_proba : Bool
  clf_classes : List String
  clf_proba : Row → List ℚ
  knn : Row → ℕ → List (ℚ × ℕ)
  n_rows : ℕ

/-- `_validate_input`: every feature column must be present (the source
collects the absent ones into a set; we keep `feature_columns` order), and
every present numeric column must hold a number. -/
def validateInput (s : PredictorState) (row : Row) : Except PredictError Unit :=
  let missing := s.feature_columns.filter (fun c => (alookup c row).isNone)
  if missing.isEmpty then
    match s.numeric_columns.find? (fun c =>
        match alookup c row with
        | some v => !v.isNum
        | none => false) with
    | some c => .error (.invalidType c)
    | none => .ok ()
  else .error (.missingFeature missing)

/-- The categorical-encoding loop of `predict` (lines 99-104): for each
categorical column present in the DataFrame, the ORIGINAL input value is
checked against the encoder's vocabulary (an absent encoder is a Python
`KeyError`, surfaced as a wrapped internal error), then the column is
replaced by the value's integer code. -/
def encodeCategoricals (s : PredictorState) (input : Row) :
    List String → Row → Except PredictError Row
  | [], df => .ok df
  | c :: cs, df =>
    if (alookup c df).isSome then
      match alookup c input with
      | none => .error (.internalKeyError c)
      | some v =>
        match alookup c s.label_encoders with
        | none => .error (.internalKeyError c)
        | some classes =>
          match v with
          | .str t =>
            if t ∈ classes then
              encodeCategoricals s input cs
                (setVal df c (.num ((classes.indexOf t : ℕ) : ℚ)))
            else .error (.invalidCategory c v classes)
          | .num q => .error (.invalidCategory c (.num q) classes)
    else encodeCategoricals s input cs df

/-- `case-insensitive, trimmed` weight-table key: `cls.strip().lower()`.
(Whitespace stripping and lowercasing are implemented structurally over the
character list, semantically matching `String.trim`/`String.toLower`.) -/
def normalizeName (t : String) : String :=
  ⟨(((t.data.dropWhile Char.isWhitespace).reverse.dropWhile
      Char.isWhitespace).reverse).map Char.toLower⟩

/-- `dict.get(key, default)` on a weight table. -/
def lookupTable (tbl : List (String × ℚ)) (key : String) (d : ℚ) : ℚ :=
  (alookup key tbl).getD d

/-- `_encoded_weights`: rebuild each weight table keyed by the integer
codes produced by the column's encoder (a missing encoder yields `{}`). -/
def encodedWeights (s : PredictorState) (col : String)
    (tbl : List (String × ℚ)) (d : ℚ) : List (ℚ × ℚ) :=
  match alookup col s.label_encoders with
  | none => []
  | some classes =>
    classes.map (fun cls =>
      (((classes.indexOf cls : ℕ) : ℚ), lookupTable tbl (normalizeName cls) d))

/-- `pandas.Series.map(dict)` on the single cell: the weight if the code is
a key of the dict.  (pandas yields `NaN` on a missing key; `ℚ` has no
`NaN`, and in the validated pipeline every code comes from the same
encoder the table was built from, so the lookup always succeeds.  The
`none` case makes the enclosing derived-feature block fail, matching the
function-level exception handler returning the DataFrame unchanged.) -/
def mapWeight (m : List (ℚ × ℚ)) (code : ℚ) : Option ℚ := alookup code m

/-- Numeric content of a column, if present and numeric. -/
def getQ? (row : Row) (c : String) : Option ℚ :=
  (alookup c row).bind Value.getNum?

/-- Weight tables of `_create_derived_features`, with their defaults. -/
def childrenTable : List (String × ℚ) :=
  [("yes", 1), ("with training", 1/2), ("no", 0)]

def sheddingTable : List (String × ℚ) :=
  [("low", 0), ("moderate", 1/2), ("high", 1), ("very high", 3/2)]

def healthTable : List (String × ℚ) :=
  [("low", 0), ("moderate", 1/2), ("high", 1)]

def sizeTable : List (String × ℚ) :=
  [("toy", 1), ("small", 1), ("small-medium", 3/2), ("medium", 2),
   ("large", 3), ("giant", 4)]

/-- `Family_Compatibility_Score` block: computed only when its three source
columns are present. -/
def famBlock (s : PredictorState) (row : Row) : Option Row :=
  if (alookup "Good with Children" row).isSome
      && (alookup "Friendly Rating (1-10)" row).isSome
      && (alookup "Training Difficulty (1-10)" row).isSome then do
    let c ← getQ? row "Good with Children"
    let w ← mapWeight (encodedWeights s "Good with Children" childrenTable 0) c
    let f ← getQ? row "Friendly Rating (1-10)"
    let t ← getQ? row "Training Difficulty (1-10)"
    pure (setVal row "Family_Compatibility_Score"
      (.num (w * (2/5) + f * (1/10) + (10 - t) * (1/10))))
  else some row

/-- `Maintenance_Score` block. -/
def maintBlock (s : PredictorState) (row : Row) : Option Row :=
  if (alookup "Shedding Level" row).isSome
      && (alookup "Exercise Requirements (hrs/day)" row).isSome
      && (alookup "Health Issues Risk" row).isSome then do
    let sh ← getQ? row "Shedding Level"
    let shw ← mapWeight (encodedWeights s "Shedding Level" sheddingTable (1/2)) sh
    let he ← getQ? row "Health Issues Risk"
    let hew ← mapWeight (encodedWeights s "Health Issues Risk" healthTable (1/2)) he
    let ex ← getQ? row "Exercise Requirements (hrs/day)"
    pure (setVal row "Maintenance_Score"
      (.num (shw * (3/10) + ex * (1/5) + hew * (3/10))))
  else some row

/-- `Energy_Score` block. -/
def energyBlock (row : Row) : Option Row :=
  if (alookup "Exercise Requirements (hrs/day)" row).isSome
      && (alookup "Intelligence Rating (1-10)" row).isSome then do
    let ex ← getQ? row "Exercise Requirements (hrs/day)"
    let iq ← getQ? row "Intelligence Rating (1-10)"
    pure (setVal row "Energy_Score" (.num (ex * (2/5) + iq * (1/10))))
  else some row

/-- `Intelligence_Training_Ratio` block (`ℚ` division; the source divides
floats, and the denominator `training + 1` is nonzero for every 1-10
rating). -/
def ratioBlock (row : Row) : Option Row :=
  if (alookup "Intelligence Rating (1-10)" row).isSome
      && (alookup "Training Difficulty (1-10)" row).isSome then do
    let iq ← getQ? row "Intelligence Rating (1-10)"
    let t ← getQ? row "Training Difficulty (1-10)"
    pure (setVal row "Intelligence_Training_Ratio" (.num (iq / (t + 1))))
  else some row

/-- `Size_Score` block. -/
def sizeBlock (s : PredictorState) (row : Row) : Option Row :=
  if (alookup "Size" row).isSome then do
    let sz ← getQ? row "Size"
    let w ← mapWeight (encodedWeights s "Size" sizeTable 2) sz
    pure (setVal row "Size_Score" (.num w))
  else some row

/-- `_create_derived_features`: the five blocks run in sequence inside one
exception handler; the first failing block aborts the rest, keeping the
columns already added (`except: return user_df`). -/
def createDerivedFeatures (s : PredictorState) (row : Row) : Row :=
  match famBlock s row with
  | none => row
  | some r1 =>
    match maintBlock s r1 with
    | none => r1
    | some r2 =>
      match energyBlock r2 with
      | none => r2
      | some r3 =>
        match ratioBlock r3 with
        | none => r3
        | some r4 =>
          match sizeBlock s r4 with
          | none => r4
          | some r5 => r5

/-- The five derived column names, in the source's order. -/
def derivedCols : List String :=
  ["Family_Compatibility_Score", "Maintenance_Score", "Energy_Score",
   "Intelligence_Training_Ratio", "Size_Score"]

/-- `expected_columns`: the training-time feature columns followed by any
derived column not already among them. -/
def expectedColumns (s : PredictorState) : List String :=
  s.feature_columns ++ derivedCols.filter (fun c => c ∉ s.feature_columns)

/-- `user_df.reindex(columns=expected_columns, fill_value=0)`. -/
def reindexRow (row : Row) (cols : List String) : Row :=
  cols.map (fun c => (c, (alookup c row).getD (.num 0)))

/-- The frozen per-column robust (median/IQR) transform of the fitted
`RobustScaler`. -/
def robustTransform (s : PredictorState) (c : String) (x : ℚ) : ℚ :=
  (x - s.scaler_center c) / s.scaler_scale c

/-- `user_df[numeric_columns] = robust_scaler.transform(...)`: rescale
exactly the numeric columns, leave every other column untouched. -/
def scaleStage (s : PredictorState) (row : Row) : Row :=
  row.map (fun p =>
    if p.1 ∈ s.numeric_columns then (p.1, .num (robustTransform s p.1 p.2.toQD))
    else p)

/-- Lexicographic-by-(value, index) order used to model `np.argsort`
(ascending, ties in native index order). -/
def argRel (l : List ℚ) (i j : ℕ) : Prop :=
  l.getD i 0 < l.getD j 0 ∨ (l.getD i 0 = l.getD j 0 ∧ i ≤ j)

instance argRel.instDecidable (l : List ℚ) : DecidableRel (argRel l) := fun i j => by
  unfold argRel; exact inferInstance

/-- `np.argsort`: indices of the list, sorted ascending by value. -/
def argsortAsc (l : List ℚ) : List ℕ :=
  List.insertionSort (argRel l) (List.range l.length)

/-- The loop body of `_generate_group_predictions`
(`enumerate(top_indices, start=1)`). -/
def buildGroupPreds (s : PredictorState) (probas : List ℚ) :
    ℕ → List ℕ → List GroupPred
  | _, [] => []
  | rank, idx :: rest =>
    { group := s.clf_classes.getD idx ""
      score := roundTo 4 (probas.getD idx 0)
      rank := rank } :: buildGroupPreds s probas (rank + 1) rest

/-- `_generate_group_predictions`: probability query, then the `top_k`
highest indices by `np.argsort(probas)[::-1][:top_k]`. -/
def generateGroupPredictions (s : PredictorState) (row : Row) (k : ℕ) :
    List GroupPred × List Capability :=
  if s.supports_proba then
    let probas := s.clf_proba row
    let top := ((argsortAsc probas).reverse).take k
    (buildGroupPreds s probas 1 top, [.clfProba])
  else ([], [])

/-- The suggestion loop of `_find_similar_breeds`
(`enumerate(zip(distances[0], indices[0]))` with the `i < top_k` guard). -/
def buildSuggestions (s : PredictorState) (maxSim : ℚ) (k : ℕ) :
    ℕ → List (ℚ × ℕ) → List Suggestion
  | _, [] => []
  | i, (d, idx) :: rest =>
    if i < k then
      { breed := if s.breed_labels.isEmpty then s.y_processed.getD idx ""
                 else s.breed_labels.getD idx ""
        group := if s.group_labels.isEmpty then none
                 else some (s.group_labels.getD idx "")
        similarity := roundTo 3 (if 0 < maxSim then (1 / (1 + d)) / maxSim else 0)
        rank := i + 1 } :: buildSuggestions s maxSim k (i + 1) rest
    else buildSuggestions s maxSim k (i + 1) rest

/-- `similarities = 1 / (1 + distances[0])` followed by
`max_sim = similarities.max() if len(similarities) > 0 else 1`. -/
def maxSimOf (pairs : List (ℚ × ℕ)) : ℚ :=
  match pairs.map (fun p => 1 / (1 + p.1)) with
  | [] => 1
  | x :: xs => xs.foldl max x

/-- `_find_similar_breeds`: query the `min(top_k, len(X_enhanced))`
nearest rows, convert distances to `1/(1+d)` similarities, normalise by
the maximum raw similarity (`1` on an empty result), round to 3 decimals,
rank 1-based in the index's return order. -/
def findSimilarBreeds (s : PredictorState) (row : Row) (k : ℕ) :
    List Suggestion × List Capability :=
  let nc := min k s.n_rows
  let pairs := s.knn row nc
  (buildSuggestions s (maxSimOf pairs) k 0 pairs, [.knnQuery])

/-- One optional profile field: `some []` when the source column is
absent, `some [entry]` when it holds a number, `none` when rounding the
cell would raise (a non-numeric cell), which aborts the whole profile. -/
def profField (row : Row) (col : String) (d : ℕ) (name : String) :
    Option (List (String × ℚ)) :=
  match alookup col row with
  | none => some []
  | some v =>
    match v with
    | .num q => some [(name, roundTo d q)]
    | .str _ => none

/-- `_calculate_user_profile`: five optional fields computed inside one
exception handler; any failure yields the empty profile (`return {}`). -/
def calculateUserProfile (row : Row) : List (String × ℚ) :=
  match (do
    let a ← profField row "Family_Compatibility_Score" 2 "family_friendly"
    let b ← profField row "Energy_Score" 2 "energy_level"
    let c ← profField row "Maintenance_Score" 2 "maintenance_level"
    let d ← profField row "Intelligence Rating (1-10)" 1 "intelligence_level"
    let e ← profField row "Size_Score" 1 "size_preference"
    pure (a ++ b ++ c ++ d ++ e) : Option (List (String × ℚ))) with
  | some l => l
  | none => []

/-- `k = max(1, min(int(top_k), len(self.breed_names)))`. -/
def clampK (s : PredictorState) (top_k : ℤ) : ℕ :=
  (max 1 (min top_k (s.breed_names.length : ℤ))).toNat

/-- `DogMatchPredictor.predict`: validate → encode → derive → align →
scale → grouped predictions → breed suggestions → profile → assemble.
The capability trace records the classifier / similarity-index queries in
the order the source performs them; validation and encoding errors return
before any capability is invoked. -/
def predict (s : PredictorState) (input : Row) (top_k : ℤ) :
    Except PredictError PredictResult × List Capability :=
  let k := clampK s top_k
  match validateInput s input with
  | .error e => (.error e, [])
  | .ok _ =>
    match encodeCategoricals s input s.categorical_columns input with
    | .error e => (.error e, [])
    | .ok encRow =>
      let df := scaleStage s
        (reindexRow (createDerivedFeatures s encRow) (expectedColumns s))
      let gp := generateGroupPredictions s df k
      let sb := findSimilarBreeds s df k
      ( .ok { predictions := sb.1
              similar_breeds := sb.1
              user_profile := calculateUserProfile df
              predictions_grouped := gp.1 }
      , gp.2 ++ sb.2)

/-- Error responses of the `/api/recommend` route. -/
inductive AppError where
  | badTopK
  | missingFields (cols : List String)
  | badNumeric (col : String)
  | badCategory (col : String) (allowed : List String)
  | internal (e : PredictError)
deriving DecidableEq, Repr

/-- First categorical column of `categorical_values` whose provided value
is outside its vocabulary (the route-level check). -/
def findBadCategory (s : PredictorState) (body : Row) :
    Option (String × List String) :=
  (s.label_encoders.find? (fun p =>
    match alookup p.1 body with
    | some (.str v) => !(p.2.contains v)
    | some (.num _) => true
    | none => false))

/-- `recommend_breeds` (`app.py`): reject non-positive `top_k` before any
model work, then field/type/category validation, then `predict`. -/
def recommendBreeds (s : PredictorState) (body : Row) (top_k : ℤ) :
    Except AppError PredictResult × List Capability :=
  if top_k ≤ 0 then (.error .badTopK, [])
  else
    let missing := s.feature_columns.filter (fun c => (alookup c body).isNone)
    if missing.isEmpty then
      match s.numeric_columns.find? (fun c =>
          match alookup c body with
          | some v => !v.isNum
          | none => false) with
      | some c => (.error (.badNumeric c), [])
      | none =>
        match findBadCategory s body with
        | some p => (.error (.badCategory p.1 p.2), [])
        | none =>
          match predict s body top_k with
          | (.ok r, tr) => (.ok r, tr)
          | (.error e, tr) => (.error (.internal e), tr)
    else (.error (.missingFields missing), [])

/-- Project a successful result (used only to state closed facts about
concrete runs). -/
def resultOrDefault : Except PredictError PredictResult → PredictResult
  | .ok r => r
  | .error _ =>
    { predictions := [], similar_breeds := [], user_profile := []
      predictions_grouped := [] }

/-- Validity of an input row for the pipeline: every feature column
present, every present numeric column numeric, every present categorical
column a string inside its encoder's vocabulary. -/
def validInputB (s : PredictorState) (row : Row) : Bool :=
  s.feature_columns.all (fun c => (alookup c row).isSome)
    && s.numeric_columns.all (fun c =>
        match alookup c row with
        | some v => v.isNum
        | none => true)
    && s.categorical_columns.all (fun c =>
        match alookup c row, alookup c s.label_encoders with
        | some (.str v), some classes => classes.contains v
        | some _, _ => false
        | none, _ => true)

/-- Decidable form of "column `c` of `input` is encodable": absent, or a
string inside its encoder's vocabulary. -/
def catOKB (s : PredictorState) (input : Row) (c : String) : Bool :=
  match alookup c input, alookup c s.label_encoders with
  | some (.str v), some classes => classes.contains v
  | some _, _ => false
  | none, _ => true

/-- Decidable form of "column `c` of `input` holds a value outside its
encoder's vocabulary". -/
def catOffB (s : PredictorState) (input : Row) (c : String) : Bool :=
  match alookup c input, alookup c s.label_encoders with
  | some (.str v), some classes => !(classes.contains v)
  | some (.num _), some _ => true
  | _, _ => false

/-- A small concrete predictor state used to instantiate the theorems:
the real schema's eight preference columns, sorted three-class encoders
(as `LabelEncoder` produces), a two-row catalog, an identity scaler, a
classifier with two groups of equal probability and a similarity index
returning its rows in ascending distance order. -/
def demoState : PredictorState where
  feature_columns := ["Size", "Exercise Requirements (hrs/day)",
    "Good with Children", "Intelligence Rating (1-10)",
    "Training Difficulty (1-10)", "Shedding Level", "Health Issues Risk",
    "Friendly Rating (1-10)"]
  categorical_columns := ["Size", "Good with Children", "Shedding Level",
    "Health Issues Risk"]
  numeric_columns := ["Exercise Requirements (hrs/day)",
    "Intelligence Rating (1-10)", "Training Difficulty (1-10)",
    "Friendly Rating (1-10)"]
  breed_names := ["Beagle", "Pug"]
  group_labels := ["Hound", "Toy"]
  breed_labels := ["Beagle", "Pug"]
  y_processed := ["Beagle", "Pug"]
  label_encoders := [("Size", ["Large", "Medium", "Small"]),
    ("Good with Children", ["No", "With Training", "Yes"]),
    ("Shedding Level", ["High", "Low", "Moderate"]),
    ("Health Issues Risk", ["High", "Low", "Moderate"])]
  scaler_center := fun _ => 0
  scaler_scale := fun _ => 1
  supports_proba := true
  clf_classes := ["A", "B"]
  clf_proba := fun _ => [1/2, 1/2]
  knn := fun _ n => if n = 0 then [] else if n = 1 then [(0, 0)]
    else [(0, 0), (1, 1)]
  n_rows := 2

/-- The spec's example request, as received by `predict`. -/
def demoRow : Row :=
  [("Size", .str "Medium"), ("Exercise Requirements (hrs/day)", .num 2),
   ("Good with Children", .str "Yes"), ("Intelligence Rating (1-10)", .num 7),
   ("Training Difficulty (1-10)", .num 3), ("Shedding Level", .str "Moderate"),
   ("Health Issues Risk", .str "Low"), ("Friendly Rating (1-10)", .num 8)]

/-- The example request with an out-of-vocabulary `Shedding Level`. -/
def demoRowBadShedding : Row :=
  [("Size", .str "Medium"), ("Exercise Requirements (hrs/day)", .num 2),
   ("Good with Children", .str "Yes"), ("Intelligence Rating (1-10)", .num 7),
   ("Training Difficulty (1-10)", .num 3), ("Shedding Level", .str "Extreme"),
   ("Health Issues Risk", .str "Low"), ("Friendly Rating (1-10)", .num 8)]

/-- The example request with `Size` removed and an out-of-vocabulary
`Shedding Level`. -/
def demoRowMissingAndBad : Row :=
  [("Exercise Requirements (hrs/day)", .num 2),
   ("Good with Children", .str "Yes"), ("Intelligence Rating (1-10)", .num 7),
   ("Training Difficulty (1-10)", .num 3), ("Shedding Level", .str "Extreme"),
   ("Health Issues Risk", .str "Low"), ("Friendly Rating (1-10)", .num 8)]

/-- The concrete run of `predict` on the demo state and example row. -/
def demoPred : Except PredictError PredictResult × List Capability :=
  predict demoState demoRow 2

/-- Its successful result. -/
def demoRes : PredictResult := resultOrDefault demoPred.1

/-! ### Rounding lemmas -/

theorem floor_le_bankersRound (q : ℚ) : ⌊q⌋ ≤ bankersRound q := by
  unfold bankersRound; split_ifs <;> omega

theorem bankersRound_le_floor_add_one (q : ℚ) : bankersRound q ≤ ⌊q⌋ + 1 := by
  unfold bankersRound; split_ifs <;> omega

theorem bankersRound_mono {a b : ℚ} (h : a ≤ b) :
    bankersRound a ≤ bankersRound b := by
  rcases lt_or_le ⌊a⌋ ⌊b⌋ with hf | hf
  · calc bankersRound a ≤ ⌊a⌋ + 1 := bankersRound_le_floor_add_one a
      _ ≤ ⌊b⌋ := by omega
      _ ≤ bankersRound b := floor_le_bankersRound b
  · have he : ⌊a⌋ = ⌊b⌋ := le_antisymm (Int.floor_le_floor h) hf
    unfold bankersRound
    rw [he]
    split_ifs <;> first | omega | linarith

theorem bankersRound_nonneg {q : ℚ} (h : 0 ≤ q) : 0 ≤ bankersRound q := by
  have : (0 : ℤ) ≤ ⌊q⌋ := Int.floor_nonneg.2 h
  have := floor_le_bankersRound q
  omega

theorem bankersRound_le_of_le_int {q : ℚ} {n : ℤ} (h : q ≤ (n : ℚ)) :
    bankersRound q ≤ n := by
  have hf : ⌊q⌋ ≤ n := by
    have := Int.floor_le_floor h
    simpa using this
  rcases lt_or_eq_of_le hf with hlt | heq
  · have := bankersRound_le_floor_add_one q
    omega
  · unfold bankersRound
    rw [heq]
    split_ifs with h1 h2 h3
    · omega
    · exfalso; linarith
    · omega
    · exfalso; linarith [not_lt.mp h1, not_lt.mp h2]

theorem roundTo_mono (d : ℕ) {a b : ℚ} (h : a ≤ b) : roundTo d a ≤ roundTo d b := by
  unfold roundTo
  have hp : (0 : ℚ) < (10 : ℚ) ^ d := by positivity
  have hm : a * (10 : ℚ) ^ d ≤ b * (10 : ℚ) ^ d :=
    mul_le_mul_of_nonneg_right h (le_of_lt hp)
  have hr : ((bankersRound (a * (10:ℚ) ^ d) : ℤ) : ℚ)
      ≤ ((bankersRound (b * (10:ℚ) ^ d) : ℤ) : ℚ) := by
    exact_mod_cast bankersRound_mono hm
  gcongr

theorem roundTo_nonneg (d : ℕ) {q : ℚ} (h : 0 ≤ q) : 0 ≤ roundTo d q := by
  unfold roundTo
  have hp : (0 : ℚ) < (10 : ℚ) ^ d := by positivity
  have hr : (0 : ℤ) ≤ bankersRound (q * (10 : ℚ) ^ d) :=
    bankersRound_nonneg (by positivity)
  exact div_nonneg (by exact_mod_cast hr) (le_of_lt hp)

theorem roundTo_le_one (d : ℕ) {q : ℚ} (h : q ≤ 1) : roundTo d q ≤ 1 := by
  unfold roundTo
  have hp : (0 : ℚ) < (10 : ℚ) ^ d := by positivity
  have hb : q * (10 : ℚ) ^ d ≤ (((10 : ℤ) ^ d : ℤ) : ℚ) := by
    push_cast
    calc q * (10 : ℚ) ^ d ≤ 1 * (10 : ℚ) ^ d :=
          mul_le_mul_of_nonneg_right h (le_of_lt hp)
      _ = (10 : ℚ) ^ d := one_mul _
  have hr := bankersRound_le_of_le_int hb
  rw [div_le_one hp]
  calc ((bankersRound (q * (10 : ℚ) ^ d) : ℤ) : ℚ) ≤ (((10 : ℤ) ^ d : ℤ) : ℚ) := by
        exact_mod_cast hr
    _ = (10 : ℚ) ^ d := by push_cast; ring

theorem roundTo_one (d : ℕ) : roundTo d 1 = 1 := by
  unfold roundTo bankersRound
  have h1 : (1 : ℚ) * (10 : ℚ) ^ d = (((10 : ℤ) ^ d : ℤ) : ℚ) := by push_cast; ring
  rw [h1, Int.floor_intCast]
  have h2 : (((10 : ℤ) ^ d : ℤ) : ℚ) - (((10 : ℤ) ^ d : ℤ) : ℚ) < 1 / 2 := by norm_num
  rw [if_pos h2]
  rw [div_eq_one_iff_eq (by positivity)]
  push_cast; ring

/-! ### Association-list lemmas -/

theorem alookup_nil {α β : Type} [DecidableEq α] (k : α) :
    alookup k ([] : List (α × β)) = none := rfl

theorem alookup_cons {α β : Type} [DecidableEq α] (k a : α) (b : β)
    (l : List (α × β)) :
    alookup k ((a, b) :: l) = if a = k then some b else alookup k l := rfl

theorem alookup_append {α β : Type} [DecidableEq α] (k : α)
    (l₁ l₂ : List (α × β)) :
    alookup k (l₁ ++ l₂) =
      match alookup k l₁ with
      | some v => some v
      | none => alookup k l₂ := by
  induction l₁ with
  | nil => rfl
  | cons p rest ih =>
    obtain ⟨a, b⟩ := p
    by_cases h : a = k
    · simp only [List.cons_append, alookup_cons, if_pos h]
    · simp only [List.cons_append, alookup_cons, if_neg h, ih]

theorem alookup_overwrite_self (row : Row) (c : String) (v : Value)
    (h : (alookup c row).isSome = true) :
    alookup c (row.map (fun p => if p.1 = c then (c, v) else p)) = some v := by
  induction row with
  | nil => simp [alookup] at h
  | cons p rest ih =>
    obtain ⟨a, b⟩ := p
    by_cases hac : a = c
    · subst hac
      simp [alookup_cons]
    · rw [alookup_cons, if_neg hac] at h
      simp [alookup_cons, hac, ih h]

theorem alookup_overwrite_other (row : Row) (c c' : String) (v : Value)
    (h : c' ≠ c) :
    alookup c' (row.map (fun p => if p.1 = c then (c, v) else p)) =
      alookup c' row := by
  induction row with
  | nil => rfl
  | cons p rest ih =>
    obtain ⟨a, b⟩ := p
    by_cases hac : a = c
    · subst hac
      simp [alookup_cons, Ne.symm h, ih]
    · by_cases hac' : a = c'
      · simp [alookup_cons, hac, hac', h, ih]
      · simp [alookup_cons, hac, hac', h, ih]

theorem setVal_lookup_self (row : Row) (c : String) (v : Value) :
    alookup c (setVal row c v) = some v := by
  unfold setVal
  split_ifs with h
  · exact alookup_overwrite_self row c v h
  · rw [alookup_append]
    have hnone : alookup c row = none := by
      cases hr : alookup c row with
      | none => rfl
      | some v' => rw [hr] at h; simp at h
    rw [hnone, alookup_cons, if_pos rfl]

theorem setVal_lookup_other (row : Row) (c c' : String) (v : Value)
    (h : c' ≠ c) : alookup c' (setVal row c v) = alookup c' row := by
  unfold setVal
  split_ifs with hs
  · exact alookup_overwrite_other row c c' v h
  · rw [alookup_append]
    cases hr : alookup c' row with
    | some v' => rfl
    | none =>
      rw [alookup_cons, if_neg (fun hh => h hh.symm)]
      rfl

/-! ### Scaling-stage lemmas -/

theorem scaleStage_lookup (s : PredictorState) (row : Row) (c : String) :
    alookup c (scaleStage s row) =
      if c ∈ s.numeric_columns
      then (alookup c row).map (fun v => Value.num (robustTransform s c v.toQD))
      else alookup c row := by
  induction row with
  | nil => simp [scaleStage, alookup]
  | cons p rest ih =>
    obtain ⟨a, b⟩ := p
    unfold scaleStage at ih ⊢
    by_cases hac : a = c
    · subst hac
      by_cases hm : a ∈ s.numeric_columns
      · simp [alookup_cons, hm]
      · simp [alookup_cons, hm]
    · by_cases hm : a ∈ s.numeric_columns
      · simpa [alookup_cons, hm, hac] using ih
      · simpa [alookup_cons, hm, hac] using ih

/-! ### Validation lemmas -/

theorem validateInput_ok (s : PredictorState) (row : Row)
    (h1 : ∀ c ∈ s.feature_columns, (alookup c row).isSome = true)
    (h2 : ∀ c ∈ s.numeric_columns, ∀ v, alookup c row = some v → v.isNum = true) :
    validateInput s row = .ok () := by
  unfold validateInput
  have hm : s.feature_columns.filter (fun c => (alookup c row).isNone) = [] := by
    rw [List.filter_eq_nil_iff]
    intro c hc
    have := h1 c hc
    simp [Option.isNone_iff_eq_none]
    cases ha : alookup c row with
    | none => rw [ha] at this; simp at this
    | some v => simp
  rw [hm]
  simp only [List.isEmpty_nil, if_true]
  have hf : s.numeric_columns.find? (fun c =>
      match alookup c row with
      | some v => !v.isNum
      | none => false) = none := by
    rw [List.find?_eq_none]
    intro c hc
    cases ha : alookup c row with
    | none => simp
    | some v => simp [h2 c hc v ha]
  rw [hf]

theorem validateInput_missing (s : PredictorState) (row : Row)
    (h : s.feature_columns.filter (fun c => (alookup c row).isNone) ≠ []) :
    validateInput s row =
      .error (.missingFeature
        (s.feature_columns.filter (fun c => (alookup c row).isNone))) := by
  unfold validateInput
  have : (s.feature_columns.filter (fun c => (alookup c row).isNone)).isEmpty = false := by
    cases hc : s.feature_columns.filter (fun c => (alookup c row).isNone) with
    | nil => exact absurd hc h
    | cons x xs => simp
  simp only [this, Bool.false_eq_true, if_false]

/-! ### Encoding lemmas -/

/-- The categorical column `c` of `input` is encodable: absent, or a
string inside its encoder's vocabulary. -/
def CatOK (s : PredictorState) (input : Row) (c : String) : Prop :=
  ∀ v, alookup c input = some v →
    ∃ t classes, v = .str t ∧ alookup c s.label_encoders = some classes ∧
      t ∈ classes

/-- The categorical column `c` of `input` carries a value outside its
encoder's vocabulary (a number, or a string not among the classes). -/
def CatOffender (s : PredictorState) (input : Row) (c : String) : Prop :=
  ∃ v classes, alookup c input = some v ∧
    alookup c s.label_encoders = some classes ∧
    (∀ t, v = .str t → t ∉ classes)

theorem setVal_isSome (row : Row) (c : String) (v : Value)
    (h : (alookup c row).isSome = true) (c' : String) :
    (alookup c' (setVal row c v)).isSome = (alookup c' row).isSome := by
  by_cases hc : c' = c
  · subst hc
    rw [setVal_lookup_self]
    simp [h]
  · rw [setVal_lookup_other _ _ _ _ hc]

theorem validInputB_spec (s : PredictorState) (row : Row)
    (h : validInputB s row = true) :
    (∀ c ∈ s.feature_columns, (alookup c row).isSome = true) ∧
      (∀ c ∈ s.numeric_columns, ∀ v, alookup c row = some v → v.isNum = true) ∧
      (∀ c ∈ s.categorical_columns, CatOK s row c) := by
  unfold validInputB at h
  rw [Bool.and_eq_true, Bool.and_eq_true] at h
  obtain ⟨⟨h1, h2⟩, h3⟩ := h
  rw [List.all_eq_true] at h1 h2 h3
  refine ⟨fun c hc => h1 c hc, fun c hc v hv => ?_, fun c hc v hv => ?_⟩
  · have := h2 c hc
    rw [hv] at this
    exact this
  · have := h3 c hc
    rw [hv] at this
    cases v with
    | num q => simp at this
    | str t =>
      cases he : alookup c s.label_encoders with
      | none => rw [he] at this; simp at this
      | some classes =>
        rw [he] at this
        exact ⟨t, classes, rfl, rfl, by simpa using this⟩

theorem encodeCategoricals_ok (s : PredictorState) (input : Row) :
    ∀ (cols : List String) (df : Row),
      (∀ c ∈ cols, CatOK s input c) →
      (∀ c', (alookup c' df).isSome = (alookup c' input).isSome) →
      ∃ out, encodeCategoricals s input cols df = .ok out ∧
        (∀ c', (alookup c' out).isSome = (alookup c' input).isSome) := by
  intro cols
  induction cols with
  | nil => exact fun df _ hinv => ⟨df, rfl, hinv⟩
  | cons c cs ih =>
    intro df hok hinv
    unfold encodeCategoricals
    cases hin : alookup c input with
    | none =>
      have hdf : (alookup c df).isSome = false := by
        rw [hinv c, hin]; rfl
      rw [hdf]
      simp only [Bool.false_eq_true, if_false]
      exact ih df (fun c' hc' => hok c' (List.mem_cons_of_mem _ hc')) hinv
    | some v =>
      obtain ⟨t, classes, hvt, hcl, hmem⟩ :=
        hok c (List.mem_cons_self c cs) v hin
      subst hvt
      have hdf : (alookup c df).isSome = true := by
        rw [hinv c, hin]; rfl
      rw [hdf, if_pos rfl]
      simp only [hcl, if_pos hmem]
      have hdfc : (alookup c df).isSome = true := hdf
      exact ih (setVal df c (.num ((classes.indexOf t : ℕ) : ℚ)))
        (fun c' hc' => hok c' (List.mem_cons_of_mem _ hc'))
        (fun c' => by rw [setVal_isSome df c _ hdfc c', hinv c'])

theorem encodeCategoricals_offender (s : PredictorState) (input : Row) :
    ∀ (cols : List String) (df : Row),
      (∀ c ∈ cols, CatOK s input c ∨ CatOffender s input c) →
      (∃ c ∈ cols, CatOffender s input c) →
      (∀ c', (alookup c' df).isSome = (alookup c' input).isSome) →
      ∃ c v classes, encodeCategoricals s input cols df =
          .error (.invalidCategory c v classes) ∧
        alookup c s.label_encoders = some classes ∧
        alookup c input = some v ∧ (∀ t, v = .str t → t ∉ classes) := by
  intro cols
  induction cols with
  | nil => rintro df _ ⟨c, hc, _⟩ _; simp at hc
  | cons c cs ih =>
    intro df hok hex hinv
    unfold encodeCategoricals
    by_cases hoff : CatOffender s input c
    · obtain ⟨v, classes, hv, hcl, hbad⟩ := hoff
      have hdf : (alookup c df).isSome = true := by
        rw [hinv c, hv]; rfl
      rw [hdf, if_pos rfl, hv, hcl]
      cases v with
      | num q =>
        exact ⟨c, .num q, classes, rfl, hcl, hv, fun t ht => by cases ht⟩
      | str t =>
        have hnm : t ∉ classes := hbad t rfl
        simp only [if_neg hnm]
        exact ⟨c, .str t, classes, rfl, hcl, hv, fun t' ht' => by
          cases ht'; exact hnm⟩
    · have hcok : CatOK s input c := by
        rcases hok c (List.mem_cons_self c cs) with h | h
        · exact h
        · exact absurd h hoff
      have hex' : ∃ c' ∈ cs, CatOffender s input c' := by
        obtain ⟨c', hc', hoff'⟩ := hex
        rcases List.mem_cons.mp hc' with rfl | hmem
        · exact absurd hoff' hoff
        · exact ⟨c', hmem, hoff'⟩
      cases hin : alookup c input with
      | none =>
        have hdf : (alookup c df).isSome = false := by
          rw [hinv c, hin]; rfl
        rw [hdf]
        simp only [Bool.false_eq_true, if_false]
        exact ih df (fun c' hc' => hok c' (List.mem_cons_of_mem _ hc')) hex' hinv
      | some v =>
        obtain ⟨t, classes, hvt, hcl, hmem⟩ := hcok v hin
        subst hvt
        have hdf : (alookup c df).isSome = true := by
          rw [hinv c, hin]; rfl
        rw [hdf, if_pos rfl]
        simp only [hcl, if_pos hmem]
        exact ih (setVal df c (.num ((classes.indexOf t : ℕ) : ℚ)))
          (fun c' hc' => hok c' (List.mem_cons_of_mem _ hc')) hex'
          (fun c' => by rw [setVal_isSome df c _ hdf c', hinv c'])

/-! ### `predict` unfolding lemmas -/

theorem predict_of_valid (s : PredictorState) (input : Row) (tk : ℤ)
    (hv : validInputB s input = true) :
    ∃ enc, encodeCategoricals s input s.categorical_columns input = .ok enc ∧
      predict s input tk =
        (let df := scaleStage s
            (reindexRow (createDerivedFeatures s enc) (expectedColumns s));
          ( .ok { predictions := (findSimilarBreeds s df (clampK s tk)).1
                  similar_breeds := (findSimilarBreeds s df (clampK s tk)).1
                  user_profile := calculateUserProfile df
                  predictions_grouped :=
                    (generateGroupPredictions s df (clampK s tk)).1 }
          , (generateGroupPredictions s df (clampK s tk)).2 ++
              (findSimilarBreeds s df (clampK s tk)).2)) := by
  obtain ⟨h1, h2, h3⟩ := validInputB_spec s input hv
  obtain ⟨enc, henc, _⟩ :=
    encodeCategoricals_ok s input s.categorical_columns input h3 (fun _ => rfl)
  refine ⟨enc, henc, ?_⟩
  unfold predict
  rw [validateInput_ok s input h1 h2, henc]

theorem predict_missing (s : PredictorState) (input : Row) (tk : ℤ)
    (h : s.feature_columns.filter (fun c => (alookup c input).isNone) ≠ []) :
    predict s input tk =
      (.error (.missingFeature
        (s.feature_columns.filter (fun c => (alookup c input).isNone))), []) := by
  unfold predict
  rw [validateInput_missing s input h]

theorem predict_invalid_category_aux (s : PredictorState) (input : Row) (tk : ℤ)
    (h1 : ∀ c ∈ s.feature_columns, (alookup c input).isSome = true)
    (h2 : ∀ c ∈ s.numeric_columns, ∀ v, alookup c input = some v → v.isNum = true)
    (hok : ∀ c ∈ s.categorical_columns,
      CatOK s input c ∨ CatOffender s input c)
    (hex : ∃ c ∈ s.categorical_columns, CatOffender s input c) :
    ∃ c v classes,
      predict s input tk = (.error (.invalidCategory c v classes), []) ∧
      alookup c s.label_encoders = some classes ∧
      alookup c input = some v ∧ (∀ t, v = .str t → t ∉ classes) := by
  obtain ⟨c, v, classes, herr, hcl, hin, hbad⟩ :=
    encodeCategoricals_offender s input s.categorical_columns input hok hex
      (fun _ => rfl)
  refine ⟨c, v, classes, ?_, hcl, hin, hbad⟩
  unfold predict
  rw [validateInput_ok s input h1 h2, herr]

/-! ### Similar-breed lemmas -/

theorem foldl_max_of_le {xs : List ℚ} {x : ℚ} (h : ∀ y ∈ xs, y ≤ x) :
    xs.foldl max x = x := by
  induction xs generalizing x with
  | nil => rfl
  | cons y ys ih =>
    rw [List.foldl_cons, max_eq_left (h y (List.mem_cons_self y ys))]
    exact ih (fun z hz => h z (List.mem_cons_of_mem _ hz))

theorem buildSuggestions_length (s : PredictorState) (m : ℚ) (k : ℕ) :
    ∀ (pairs : List (ℚ × ℕ)) (i : ℕ), i + pairs.length ≤ k →
      (buildSuggestions s m k i pairs).length = pairs.length := by
  intro pairs
  induction pairs with
  | nil => intro i _; rfl
  | cons p rest ih =>
    intro i hi
    obtain ⟨d, idx⟩ := p
    unfold buildSuggestions
    rw [if_pos (by simp at hi; omega)]
    simp only [List.length_cons]
    rw [ih (i + 1) (by simp at hi ⊢; omega)]

theorem buildSuggestions_ranks (s : PredictorState) (m : ℚ) (k : ℕ) :
    ∀ (pairs : List (ℚ × ℕ)) (i : ℕ), i + pairs.length ≤ k →
      (buildSuggestions s m k i pairs).map Suggestion.rank =
        List.range' (i + 1) pairs.length := by
  intro pairs
  induction pairs with
  | nil => intro i _; rfl
  | cons p rest ih =>
    intro i hi
    obtain ⟨d, idx⟩ := p
    unfold buildSuggestions
    rw [if_pos (by simp at hi; omega)]
    simp only [List.map_cons, List.length_cons, List.range'_succ]
    rw [ih (i + 1) (by simp at hi ⊢; omega)]

theorem buildSuggestions_sims (s : PredictorState) (m : ℚ) (k : ℕ) :
    ∀ (pairs : List (ℚ × ℕ)) (i : ℕ), i + pairs.length ≤ k →
      (buildSuggestions s m k i pairs).map Suggestion.similarity =
        pairs.map (fun p =>
          roundTo 3 (if 0 < m then (1 / (1 + p.1)) / m else 0)) := by
  intro pairs
  induction pairs with
  | nil => intro i _; rfl
  | cons p rest ih =>
    intro i hi
    obtain ⟨d, idx⟩ := p
    unfold buildSuggestions
    rw [if_pos (by simp at hi; omega)]
    simp only [List.map_cons]
    rw [ih (i + 1) (by simp at hi ⊢; omega)]

theorem buildSuggestions_sorted (s : PredictorState) (m : ℚ) (k : ℕ)
    (pairs : List (ℚ × ℕ)) (hle : pairs.length ≤ k)
    (hsort : (pairs.map Prod.fst).Pairwise (· ≤ ·))
    (hnn : ∀ p ∈ pairs, 0 ≤ p.1) :
    ((buildSuggestions s m k 0 pairs).map Suggestion.similarity).Pairwise
      (· ≥ ·) := by
  rw [buildSuggestions_sims s m k pairs 0 (by omega)]
  have hp : pairs.Pairwise (fun a b => a.1 ≤ b.1) := (List.pairwise_map).mp hsort
  have hp2 : pairs.Pairwise (fun a b =>
      roundTo 3 (if 0 < m then (1 / (1 + a.1)) / m else 0) ≥
        roundTo 3 (if 0 < m then (1 / (1 + b.1)) / m else 0)) := by
    refine List.Pairwise.imp_of_mem ?_ hp
    intro a b ha hb hab
    by_cases hm : 0 < m
    · rw [if_pos hm, if_pos hm]
      apply roundTo_mono
      have h1 : (0 : ℚ) < 1 + a.1 := by have := hnn a ha; linarith
      have h3 : 1 / (1 + b.1) ≤ 1 / (1 + a.1) :=
        one_div_le_one_div_of_le h1 (by linarith)
      gcongr
    · rw [if_neg hm, if_neg hm]
  exact (List.pairwise_map).mpr hp2

theorem maxSimOf_cons (d0 : ℚ) (idx0 : ℕ) (rest : List (ℚ × ℕ))
    (hsort : (((d0, idx0) :: rest).map Prod.fst).Pairwise (· ≤ ·))
    (hnn : ∀ p ∈ (d0, idx0) :: rest, 0 ≤ p.1) :
    maxSimOf ((d0, idx0) :: rest) = 1 / (1 + d0) := by
  unfold maxSimOf
  simp only [List.map_cons]
  apply foldl_max_of_le
  intro y hy
  obtain ⟨p, hp, hpy⟩ := List.mem_map.mp hy
  have hd0 : d0 ≤ p.1 := by
    have := (List.pairwise_cons.mp ((List.pairwise_map).mp hsort)).1
    exact this p hp
  have h0 : (0 : ℚ) < 1 + d0 := by
    have := hnn (d0, idx0) (List.mem_cons_self _ _)
    simp at this
    linarith
  subst hpy
  exact one_div_le_one_div_of_le h0 (by linarith)

theorem buildSuggestions_head (s : PredictorState) (k : ℕ)
    (d0 : ℚ) (idx0 : ℕ) (rest : List (ℚ × ℕ)) (hk : 0 < k)
    (hsort : (((d0, idx0) :: rest).map Prod.fst).Pairwise (· ≤ ·))
    (hnn : ∀ p ∈ (d0, idx0) :: rest, 0 ≤ p.1) :
    ∃ sg tail,
      buildSuggestions s (maxSimOf ((d0, idx0) :: rest)) k 0
          ((d0, idx0) :: rest) = sg :: tail ∧
        sg.rank = 1 ∧ sg.similarity = 1 := by
  have hm := maxSimOf_cons d0 idx0 rest hsort hnn
  have h0 : (0 : ℚ) < 1 + d0 := by
    have := hnn (d0, idx0) (List.mem_cons_self _ _)
    simp at this
    linarith
  have hpos : 0 < maxSimOf ((d0, idx0) :: rest) := by
    rw [hm]; positivity
  unfold buildSuggestions
  rw [if_pos hk]
  refine ⟨_, _, rfl, rfl, ?_⟩
  show roundTo 3 (if 0 < maxSimOf ((d0, idx0) :: rest)
      then (1 / (1 + d0)) / maxSimOf ((d0, idx0) :: rest) else 0) = 1
  rw [if_pos hpos, hm, div_self (by positivity), roundTo_one]

theorem findSimilarBreeds_spec (s : PredictorState) (row : Row) (k : ℕ)
    (hlen : (s.knn row (min k s.n_rows)).length =
      min (min k s.n_rows) s.n_rows)
    (hsort : ((s.knn row (min k s.n_rows)).map Prod.fst).Pairwise (· ≤ ·))
    (hnn : ∀ p ∈ s.knn row (min k s.n_rows), 0 ≤ p.1) :
    (findSimilarBreeds s row k).1.length = min k s.n_rows ∧
      ((findSimilarBreeds s row k).1.map Suggestion.similarity).Pairwise
        (· ≥ ·) ∧
      (findSimilarBreeds s row k).1.map Suggestion.rank =
        List.range' 1 (min k s.n_rows) ∧
      (∀ sg ∈ (findSimilarBreeds s row k).1, ∃ x, sg.similarity = roundTo 3 x) ∧
      ((findSimilarBreeds s row k).1 = [] ↔
        s.knn row (min k s.n_rows) = []) ∧
      (∀ sg tail, (findSimilarBreeds s row k).1 = sg :: tail →
        sg.rank = 1 ∧ sg.similarity = 1) ∧
      (findSimilarBreeds s row k).2 = [.knnQuery] := by
  have hplen : (s.knn row (min k s.n_rows)).length = min k s.n_rows := by
    rw [hlen, min_assoc, min_self]
  have hle : (s.knn row (min k s.n_rows)).length ≤ k := by
    rw [hplen]; exact min_le_left _ _
  have hfs : findSimilarBreeds s row k =
      (buildSuggestions s (maxSimOf (s.knn row (min k s.n_rows))) k 0
        (s.knn row (min k s.n_rows)), [.knnQuery]) := rfl
  rw [hfs]
  refine ⟨?_, ?_, ?_, ?_, ?_, ?_, rfl⟩
  · rw [buildSuggestions_length s _ k _ 0 (by omega), hplen]
  · exact buildSuggestions_sorted s _ k _ hle hsort hnn
  · rw [buildSuggestions_ranks s _ k _ 0 (by omega), hplen]
  · intro sg hsg
    have hmap : sg.similarity ∈
        (buildSuggestions s (maxSimOf (s.knn row (min k s.n_rows))) k 0
          (s.knn row (min k s.n_rows))).map Suggestion.similarity :=
      List.mem_map.mpr ⟨sg, hsg, rfl⟩
    rw [buildSuggestions_sims s _ k _ 0 (by omega)] at hmap
    obtain ⟨p, _, hp⟩ := List.mem_map.mp hmap
    exact ⟨_, hp.symm⟩
  · constructor
    · intro hempty
      have hbl := buildSuggestions_length s
        (maxSimOf (s.knn row (min k s.n_rows)))
        k (s.knn row (min k s.n_rows)) 0 (by omega)
      have hempty' : buildSuggestions s
          (maxSimOf (s.knn row (min k s.n_rows))) k 0
          (s.knn row (min k s.n_rows)) = [] := hempty
      rw [hempty'] at hbl
      exact List.length_eq_zero.mp hbl.symm
    · intro hempty
      rw [hempty]
      rfl
  · intro sg tail hcons
    cases hpairs : s.knn row (min k s.n_rows) with
    | nil => rw [hpairs] at hcons; simp [buildSuggestions] at hcons
    | cons p rest =>
      obtain ⟨d0, idx0⟩ := p
      have hk : 0 < k := by
        have : (s.knn row (min k s.n_rows)).length ≤ k := hle
        rw [hpairs] at this
        simp at this
        omega
      rw [hpairs] at hcons hsort hnn
      obtain ⟨sg', tail', heq, hrank, hsim⟩ :=
        buildSuggestions_head s k d0 idx0 rest hk hsort hnn
      rw [heq] at hcons
      injection hcons with h1 h2
      subst h1
      exact ⟨hrank, hsim⟩

/-! ### Grouped-prediction lemmas -/

theorem argRel_total (l : List ℚ) : ∀ i j, argRel l i j ∨ argRel l j i := by
  intro i j
  unfold argRel
  rcases lt_trichotomy (l.getD i 0) (l.getD j 0) with h | h | h
  · exact Or.inl (Or.inl h)
  · rcases le_total i j with hij | hij
    · exact Or.inl (Or.inr ⟨h, hij⟩)
    · exact Or.inr (Or.inr ⟨h.symm, hij⟩)
  · exact Or.inr (Or.inl h)

theorem argRel_trans (l : List ℚ) :
    ∀ i j m, argRel l i j → argRel l j m → argRel l i m := by
  intro i j m hij hjm
  unfold argRel at *
  rcases hij with h1 | ⟨h1, h1'⟩ <;> rcases hjm with h2 | ⟨h2, h2'⟩
  · exact Or.inl (h1.trans h2)
  · exact Or.inl (h2 ▸ h1)
  · exact Or.inl (h1 ▸ h2)
  · exact Or.inr ⟨h1.trans h2, h1'.trans h2'⟩

theorem argsortAsc_sorted (l : List ℚ) :
    (argsortAsc l).Pairwise (argRel l) := by
  haveI : IsTotal ℕ (argRel l) := ⟨argRel_total l⟩
  haveI : IsTrans ℕ (argRel l) := ⟨argRel_trans l⟩
  exact List.sorted_insertionSort (argRel l) (List.range l.length)

theorem argsortAsc_perm (l : List ℚ) :
    (argsortAsc l).Perm (List.range l.length) :=
  List.perm_insertionSort (argRel l) (List.range l.length)

theorem argsortAsc_nodup (l : List ℚ) : (argsortAsc l).Nodup :=
  ((argsortAsc_perm l).nodup_iff).mpr (List.nodup_range _)

theorem argsortAsc_mem (l : List ℚ) (i : ℕ) :
    i ∈ argsortAsc l ↔ i < l.length := by
  rw [(argsortAsc_perm l).mem_iff, List.mem_range]

theorem argsortAsc_length (l : List ℚ) :
    (argsortAsc l).length = l.length := by
  rw [(argsortAsc_perm l).length_eq, List.length_range]

theorem buildGroupPreds_length (s : PredictorState) (probas : List ℚ) :
    ∀ (idxs : List ℕ) (r : ℕ),
      (buildGroupPreds s probas r idxs).length = idxs.length := by
  intro idxs
  induction idxs with
  | nil => intro r; rfl
  | cons i rest ih =>
    intro r
    unfold buildGroupPreds
    simp only [List.length_cons, ih]

theorem buildGroupPreds_ranks (s : PredictorState) (probas : List ℚ) :
    ∀ (idxs : List ℕ) (r : ℕ),
      (buildGroupPreds s probas r idxs).map GroupPred.rank =
        List.range' r idxs.length := by
  intro idxs
  induction idxs with
  | nil => intro r; rfl
  | cons i rest ih =>
    intro r
    unfold buildGroupPreds
    simp only [List.map_cons, List.length_cons, List.range'_succ, ih]

theorem buildGroupPreds_scores (s : PredictorState) (probas : List ℚ) :
    ∀ (idxs : List ℕ) (r : ℕ),
      (buildGroupPreds s probas r idxs).map GroupPred.score =
        idxs.map (fun i => roundTo 4 (probas.getD i 0)) := by
  intro idxs
  induction idxs with
  | nil => intro r; rfl
  | cons i rest ih =>
    intro r
    unfold buildGroupPreds
    simp only [List.map_cons, ih]

theorem generateGroupPredictions_spec (s : PredictorState) (row : Row) (k : ℕ)
    (hsp : s.supports_proba = true)
    (hp : ∀ p ∈ s.clf_proba row, 0 ≤ p ∧ p ≤ 1) :
    (generateGroupPredictions s row k).2 = [.clfProba] ∧
      (generateGroupPredictions s row k).1.length =
        min k (s.clf_proba row).length ∧
      ((generateGroupPredictions s row k).1.map GroupPred.score).Pairwise
        (· ≥ ·) ∧
      (generateGroupPredictions s row k).1.map GroupPred.rank =
        List.range' 1 (min k (s.clf_proba row).length) ∧
      (∀ g ∈ (generateGroupPredictions s row k).1,
        0 ≤ g.score ∧ g.score ≤ 1) ∧
      ∃ idxs,
        (generateGroupPredictions s row k).1 =
          buildGroupPreds s (s.clf_proba row) 1 idxs ∧
        idxs.length = min k (s.clf_proba row).length ∧
        idxs.Pairwise (fun a b =>
          (s.clf_proba row).getD b 0 < (s.clf_proba row).getD a 0 ∨
            ((s.clf_proba row).getD a 0 = (s.clf_proba row).getD b 0 ∧
              b < a)) ∧
        (∀ a ∈ idxs, ∀ j, j < (s.clf_proba row).length → j ∉ idxs →
          (s.clf_proba row).getD j 0 ≤ (s.clf_proba row).getD a 0) := by
  have hgen : generateGroupPredictions s row k =
      (buildGroupPreds s (s.clf_proba row) 1
        (((argsortAsc (s.clf_proba row)).reverse).take k), [.clfProba]) := by
    unfold generateGroupPredictions
    rw [hsp]
    rfl
  set l := s.clf_proba row with hl
  set D := (argsortAsc l).reverse with hD
  set T := D.take k with hT
  have hDlen : D.length = l.length := by
    rw [hD, List.length_reverse, argsortAsc_length]
  have hTlen : T.length = min k l.length := by
    rw [hT, List.length_take, hDlen]
  have hDpair : D.Pairwise (fun a b => argRel l b a) := by
    rw [hD, List.pairwise_reverse]
    exact argsortAsc_sorted l
  have hTpair : T.Pairwise (fun a b => argRel l b a) :=
    hDpair.sublist (List.take_sublist k D)
  have hDnodup : D.Nodup := by
    rw [hD, List.nodup_reverse]
    exact argsortAsc_nodup l
  have hTnodup : T.Nodup := hDnodup.sublist (List.take_sublist k D)
  have hTmem : ∀ i ∈ T, i < l.length := by
    intro i hi
    have : i ∈ D := (List.take_sublist k D).mem hi
    rw [hD, List.mem_reverse, argsortAsc_mem] at this
    exact this
  have hTstrict : T.Pairwise (fun a b =>
      l.getD b 0 < l.getD a 0 ∨ (l.getD a 0 = l.getD b 0 ∧ b < a)) := by
    have hcomb := hTpair.and hTnodup
    refine hcomb.imp ?_
    rintro a b ⟨hrel, hne⟩
    rcases hrel with hlt | ⟨heq, hle⟩
    · exact Or.inl hlt
    · exact Or.inr ⟨heq.symm, lt_of_le_of_ne hle (Ne.symm hne)⟩
  rw [hgen]
  refine ⟨rfl, ?_, ?_, ?_, ?_, T, rfl, hTlen, hTstrict, ?_⟩
  · rw [buildGroupPreds_length, hTlen]
  · rw [buildGroupPreds_scores]
    refine (List.pairwise_map).mpr ?_
    refine hTpair.imp ?_
    intro a b hrel
    rcases hrel with hlt | ⟨heq, _⟩
    · exact roundTo_mono 4 (le_of_lt hlt)
    · exact roundTo_mono 4 (le_of_eq heq)
  · rw [buildGroupPreds_ranks, hTlen]
  · intro g hg
    have hsc : g.score ∈ (buildGroupPreds s l 1 T).map GroupPred.score :=
      List.mem_map.mpr ⟨g, hg, rfl⟩
    rw [buildGroupPreds_scores] at hsc
    obtain ⟨i, hiT, hsc'⟩ := List.mem_map.mp hsc
    have hlt := hTmem i hiT
    have hmem : l.getD i 0 ∈ l := by
      rw [List.getD_eq_getElem l 0 hlt]
      exact List.getElem_mem hlt
    obtain ⟨h0, h1⟩ := hp _ hmem
    rw [← hsc']
    exact ⟨roundTo_nonneg 4 h0, roundTo_le_one 4 h1⟩
  · intro a ha j hjlen hjT
    have hjD : j ∈ D := by
      rw [hD, List.mem_reverse, argsortAsc_mem]
      exact hjlen
    have hsplit : T ++ D.drop k = D := List.take_append_drop k D
    have hjdrop : j ∈ D.drop k := by
      rw [← hsplit] at hjD
      rcases List.mem_append.mp hjD with h | h
      · exact absurd h hjT
      · exact h
    have hpairapp : (T ++ D.drop k).Pairwise (fun a b => argRel l b a) := by
      rw [hsplit]; exact hDpair
    have hcross := (List.pairwise_append.mp hpairapp).2.2
    have hrel : argRel l j a := hcross a ha j hjdrop
    rcases hrel with hlt | ⟨heq, _⟩
    · exact le_of_lt hlt
    · exact le_of_eq heq

/-! ### Profile lemmas -/

theorem alookup_mem {α β : Type} [DecidableEq α] {k : α} {v : β}
    {l : List (α × β)} (h : alookup k l = some v) : (k, v) ∈ l := by
  induction l with
  | nil => cases h
  | cons p rest ih =>
    obtain ⟨a, b⟩ := p
    rw [alookup_cons] at h
    by_cases hak : a = k
    · rw [if_pos hak] at h
      injection h with h
      subst hak h
      exact List.mem_cons_self _ _
    · rw [if_neg hak] at h
      exact List.mem_cons_of_mem _ (ih h)

theorem calculateUserProfile_spec (row : Row)
    (h : ∀ p ∈ row, ∃ q, p.2 = Value.num q) :
    alookup "family_friendly" (calculateUserProfile row) =
        (alookup "Family_Compatibility_Score" row).map
          (fun v => roundTo 2 v.toQD) ∧
      alookup "energy_level" (calculateUserProfile row) =
        (alookup "Energy_Score" row).map (fun v => roundTo 2 v.toQD) ∧
      alookup "maintenance_level" (calculateUserProfile row) =
        (alookup "Maintenance_Score" row).map (fun v => roundTo 2 v.toQD) ∧
      alookup "intelligence_level" (calculateUserProfile row) =
        (alookup "Intelligence Rating (1-10)" row).map
          (fun v => roundTo 1 v.toQD) ∧
      alookup "size_preference" (calculateUserProfile row) =
        (alookup "Size_Score" row).map (fun v => roundTo 1 v.toQD) := by
  have key : ∀ c, alookup c row = none ∨
      ∃ q, alookup c row = some (.num q) := by
    intro c
    cases hc : alookup c row with
    | none => exact Or.inl rfl
    | some v =>
      obtain ⟨q, hq⟩ := h (c, v) (alookup_mem hc)
      have hq' : v = Value.num q := hq
      exact Or.inr ⟨q, by rw [hq']⟩
  rcases key "Family_Compatibility_Score" with h1 | ⟨q1, h1⟩ <;>
    rcases key "Energy_Score" with h2 | ⟨q2, h2⟩ <;>
      rcases key "Maintenance_Score" with h3 | ⟨q3, h3⟩ <;>
        rcases key "Intelligence Rating (1-10)" with h4 | ⟨q4, h4⟩ <;>
          rcases key "Size_Score" with h5 | ⟨q5, h5⟩ <;>
            simp [calculateUserProfile, profField, h1, h2, h3, h4, h5,
              alookup_append, alookup_cons, alookup_nil, Value.toQD]

/-! ### Derived-feature lemmas -/

theorem alookup_map_graph (W : List String) (g f : String → ℚ) (t : String)
    (hmem : t ∈ W) (hinj : ∀ a ∈ W, g a = g t → a = t) :
    alookup (g t) (W.map (fun cls => (g cls, f cls))) = some (f t) := by
  induction W with
  | nil => cases hmem
  | cons c cs ih =>
    rw [List.map_cons, alookup_cons]
    by_cases hgc : g c = g t
    · have hct : c = t := hinj c (List.mem_cons_self c cs) hgc
      rw [if_pos hgc, hct]
    · rw [if_neg hgc]
      have ht' : t ∈ cs := by
        rcases List.mem_cons.mp hmem with rfl | hmem'
        · exact absurd rfl hgc
        · exact hmem'
      exact ih ht' (fun a ha => hinj a (List.mem_cons_of_mem _ ha))

theorem mapWeight_encodedWeights (s : PredictorState) (col : String)
    (classes : List String) (tbl : List (String × ℚ)) (d : ℚ) (t : String)
    (hcl : alookup col s.label_encoders = some classes) (hmem : t ∈ classes) :
    mapWeight (encodedWeights s col tbl d) ((classes.indexOf t : ℕ) : ℚ) =
      some (lookupTable tbl (normalizeName t) d) := by
  unfold mapWeight encodedWeights
  rw [hcl]
  exact alookup_map_graph classes
    (fun cls => ((classes.indexOf cls : ℕ) : ℚ))
    (fun cls => lookupTable tbl (normalizeName cls) d) t hmem
    (fun a ha heq =>
      (List.indexOf_inj ha hmem).mp (Nat.cast_injective heq))

/-- The derived-feature stage's input for the spec's concrete scenario:
the example row after categorical encoding, symbolic in the four
encoders' vocabularies. -/
def exampleEncodedRow (Vsz Vg Vsh Vhe : List String) : Row :=
  [("Size", .num ((Vsz.indexOf "Medium" : ℕ) : ℚ)),
   ("Exercise Requirements (hrs/day)", .num 2),
   ("Good with Children", .num ((Vg.indexOf "Yes" : ℕ) : ℚ)),
   ("Intelligence Rating (1-10)", .num 7),
   ("Training Difficulty (1-10)", .num 3),
   ("Shedding Level", .num ((Vsh.indexOf "Moderate" : ℕ) : ℚ)),
   ("Health Issues Risk", .num ((Vhe.indexOf "Low" : ℕ) : ℚ)),
   ("Friendly Rating (1-10)", .num 8)]

theorem createDerivedFeatures_example (s : PredictorState)
    (Vsz Vg Vsh Vhe : List String)
    (hsz : alookup "Size" s.label_encoders = some Vsz)
    (hszm : "Medium" ∈ Vsz)
    (hg : alookup "Good with Children" s.label_encoders = some Vg)
    (hgm : "Yes" ∈ Vg)
    (hsh : alookup "Shedding Level" s.label_encoders = some Vsh)
    (hshm : "Moderate" ∈ Vsh)
    (hhe : alookup "Health Issues Risk" s.label_encoders = some Vhe)
    (hhem : "Low" ∈ Vhe) :
    alookup "Family_Compatibility_Score"
        (createDerivedFeatures s (exampleEncodedRow Vsz Vg Vsh Vhe)) =
      some (.num (19/10)) ∧
    alookup "Maintenance_Score"
        (createDerivedFeatures s (exampleEncodedRow Vsz Vg Vsh Vhe)) =
      some (.num (11/20)) ∧
    alookup "Energy_Score"
        (createDerivedFeatures s (exampleEncodedRow Vsz Vg Vsh Vhe)) =
      some (.num (3/2)) ∧
    alookup "Intelligence_Training_Ratio"
        (createDerivedFeatures s (exampleEncodedRow Vsz Vg Vsh Vhe)) =
      some (.num (7/4)) ∧
    alookup "Size_Score"
        (createDerivedFeatures s (exampleEncodedRow Vsz Vg Vsh Vhe)) =
      some (.num 2) := by
  have hwg := mapWeight_encodedWeights s "Good with Children" Vg
    childrenTable 0 "Yes" hg hgm
  have hwsh := mapWeight_encodedWeights s "Shedding Level" Vsh
    sheddingTable (1/2) "Moderate" hsh hshm
  have hwhe := mapWeight_encodedWeights s "Health Issues Risk" Vhe
    healthTable (1/2) "Low" hhe hhem
  have hwsz := mapWeight_encodedWeights s "Size" Vsz
    sizeTable 2 "Medium" hsz hszm
  have hvg : lookupTable childrenTable (normalizeName "Yes") 0 = 1 := by
    with_unfolding_all decide
  have hvsh : lookupTable sheddingTable (normalizeName "Moderate") (1/2)
      = 1/2 := by with_unfolding_all decide
  have hvhe : lookupTable healthTable (normalizeName "Low") (1/2) = 0 := by
    with_unfolding_all decide
  have hvsz : lookupTable sizeTable (normalizeName "Medium") 2 = 2 := by
    with_unfolding_all decide
  rw [hvg] at hwg
  rw [hvsh] at hwsh
  rw [hvhe] at hwhe
  rw [hvsz] at hwsz
  have e1 : famBlock s (exampleEncodedRow Vsz Vg Vsh Vhe) =
      some (exampleEncodedRow Vsz Vg Vsh Vhe ++
        [("Family_Compatibility_Score",
          Value.num ((1 : ℚ) * (2/5) + 8 * (1/10) + (10 - 3) * (1/10)))]) := by
    unfold famBlock
    simp [exampleEncodedRow, alookup_cons, alookup_nil, getQ?, Value.getNum?,
      setVal, hwg]
  set r1 := exampleEncodedRow Vsz Vg Vsh Vhe ++
    [("Family_Compatibility_Score",
      Value.num ((1 : ℚ) * (2/5) + 8 * (1/10) + (10 - 3) * (1/10)))] with hr1
  have hwsh2 : mapWeight (encodedWeights s "Shedding Level" sheddingTable 2⁻¹)
      ((Vsh.indexOf "Moderate" : ℕ) : ℚ) = some 2⁻¹ := by simpa using hwsh
  have hwhe2 : mapWeight (encodedWeights s "Health Issues Risk" healthTable 2⁻¹)
      ((Vhe.indexOf "Low" : ℕ) : ℚ) = some 0 := by simpa using hwhe
  have e2 : maintBlock s r1 = some (r1 ++
      [("Maintenance_Score",
        Value.num ((1/2 : ℚ) * (3/10) + 2 * (1/5) + 0 * (3/10)))]) := by
    unfold maintBlock
    simp [hr1, exampleEncodedRow, alookup_cons, alookup_nil, alookup_append,
      getQ?, Value.getNum?, setVal, hwsh2, hwhe2]
  set r2 := r1 ++ [("Maintenance_Score",
    Value.num ((1/2 : ℚ) * (3/10) + 2 * (1/5) + 0 * (3/10)))] with hr2
  have e3 : energyBlock r2 = some (r2 ++
      [("Energy_Score", Value.num ((2 : ℚ) * (2/5) + 7 * (1/10)))]) := by
    unfold energyBlock
    simp [hr2, hr1, exampleEncodedRow, alookup_cons, alookup_nil,
      alookup_append, getQ?, Value.getNum?, setVal]
  set r3 := r2 ++ [("Energy_Score",
    Value.num ((2 : ℚ) * (2/5) + 7 * (1/10)))] with hr3
  have e4 : ratioBlock r3 = some (r3 ++
      [("Intelligence_Training_Ratio", Value.num ((7 : ℚ) / (3 + 1)))]) := by
    unfold ratioBlock
    simp [hr3, hr2, hr1, exampleEncodedRow, alookup_cons, alookup_nil,
      alookup_append, getQ?, Value.getNum?, setVal]
  set r4 := r3 ++ [("Intelligence_Training_Ratio",
    Value.num ((7 : ℚ) / (3 + 1)))] with hr4
  have e5 : sizeBlock s r4 = some (r4 ++
      [("Size_Score", Value.num (2 : ℚ))]) := by
    unfold sizeBlock
    simp [hr4, hr3, hr2, hr1, exampleEncodedRow, alookup_cons, alookup_nil,
      alookup_append, getQ?, Value.getNum?, setVal, hwsz]
  have ecreate : createDerivedFeatures s (exampleEncodedRow Vsz Vg Vsh Vhe) =
      r4 ++ [("Size_Score", Value.num (2 : ℚ))] := by
    unfold createDerivedFeatures
    simp only [e1, ← hr1, e2, ← hr2, e3, ← hr3, e4, ← hr4, e5]
  rw [ecreate]
  norm_num [hr4, hr3, hr2, hr1, exampleEncodedRow, alookup_cons, alookup_nil,
    alookup_append]
  simp [alookup_nil, alookup_cons]

/-! ### Bridging and clamping lemmas -/

theorem catOKB_catOK (s : PredictorState) (input : Row) (c : String)
    (h : catOKB s input c = true) : CatOK s input c := by
  intro v hv
  unfold catOKB at h
  rw [hv] at h
  cases v with
  | num q => cases he : alookup c s.label_encoders with
    | none => rw [he] at h; simp at h
    | some classes => rw [he] at h; simp at h
  | str t =>
    cases he : alookup c s.label_encoders with
    | none => rw [he] at h; simp at h
    | some classes =>
      rw [he] at h
      exact ⟨t, classes, rfl, rfl, by simpa using h⟩

theorem catOffB_catOffender (s : PredictorState) (input : Row) (c : String)
    (h : catOffB s input c = true) : CatOffender s input c := by
  unfold catOffB at h
  cases hv : alookup c input with
  | none => rw [hv] at h; simp at h
  | some v =>
    rw [hv] at h
    cases he : alookup c s.label_encoders with
    | none =>
      rw [he] at h
      cases v <;> simp at h
    | some classes =>
      rw [he] at h
      cases v with
      | num q => exact ⟨.num q, classes, hv, he, fun t ht => by cases ht⟩
      | str t =>
        refine ⟨.str t, classes, hv, he, fun t' ht' => ?_⟩
        cases ht'
        simpa using h

theorem clampK_pos (s : PredictorState) (tk : ℤ) : 1 ≤ clampK s tk := by
  unfold clampK
  omega

theorem clampK_of_between (s : PredictorState) {tk : ℤ} (h1 : 1 ≤ tk)
    (h2 : tk ≤ (s.breed_names.length : ℤ)) : clampK s tk = tk.toNat := by
  unfold clampK
  omega

theorem clampK_of_ge (s : PredictorState) {tk : ℤ}
    (h : (s.breed_names.length : ℤ) ≤ tk) :
    clampK s tk = clampK s (s.breed_names.length : ℤ) := by
  unfold clampK
  omega

theorem predict_clamped (s : PredictorState) (input : Row) {tk : ℤ}
    (h : (s.breed_names.length : ℤ) ≤ tk) :
    predict s input tk = predict s input (s.breed_names.length : ℤ) := by
  unfold predict
  rw [clampK_of_ge s h]

/-! ### Claim theorems -/

/-- **C1.** For the input row `{Size: Medium, Exercise Requirements: 2.0,
Good with Children: Yes, Intelligence Rating: 7, Training Difficulty: 3,
Shedding Level: Moderate, Health Issues Risk: Low, Friendly Rating: 8}`
(after categorical encoding, for any encoder vocabularies containing those
category names), the derived-feature stage computes, before any scaling or
profile rounding, exactly `Family_Compatibility_Score = 1.9`,
`Maintenance_Score = 0.55`, `Energy_Score = 1.5`,
`Intelligence_Training_Ratio = 1.75` and `Size_Score = 2.0`. -/
theorem c1_derived_features_exact (s : PredictorState)
    (Vsz Vg Vsh Vhe : List String)
    (hsz : alookup "Size" s.label_encoders = some Vsz)
    (hszm : "Medium" ∈ Vsz)
    (hg : alookup "Good with Children" s.label_encoders = some Vg)
    (hgm : "Yes" ∈ Vg)
    (hsh : alookup "Shedding Level" s.label_encoders = some Vsh)
    (hshm : "Moderate" ∈ Vsh)
    (hhe : alookup "Health Issues Risk" s.label_encoders = some Vhe)
    (hhem : "Low" ∈ Vhe) :
    alookup "Family_Compatibility_Score"
        (createDerivedFeatures s (exampleEncodedRow Vsz Vg Vsh Vhe)) =
      some (.num (19/10)) ∧
    alookup "Maintenance_Score"
        (createDerivedFeatures s (exampleEncodedRow Vsz Vg Vsh Vhe)) =
      some (.num (11/20)) ∧
    alookup "Energy_Score"
        (createDerivedFeatures s (exampleEncodedRow Vsz Vg Vsh Vhe)) =
      some (.num (3/2)) ∧
    alookup "Intelligence_Training_Ratio"
        (createDerivedFeatures s (exampleEncodedRow Vsz Vg Vsh Vhe)) =
      some (.num (7/4)) ∧
    alookup "Size_Score"
        (createDerivedFeatures s (exampleEncodedRow Vsz Vg Vsh Vhe)) =
      some (.num 2) :=
  createDerivedFeatures_example s Vsz Vg Vsh Vhe hsz hszm hg hgm hsh hshm
    hhe hhem

/-- Witness for **C1** at the demo state's concrete vocabularies. -/
theorem c1_derived_features_exact_witness :
    (alookup "Size" demoState.label_encoders =
        some ["Large", "Medium", "Small"] ∧
      "Medium" ∈ ["Large", "Medium", "Small"] ∧
      alookup "Good with Children" demoState.label_encoders =
        some ["No", "With Training", "Yes"] ∧
      "Yes" ∈ ["No", "With Training", "Yes"] ∧
      alookup "Shedding Level" demoState.label_encoders =
        some ["High", "Low", "Moderate"] ∧
      "Moderate" ∈ ["High", "Low", "Moderate"] ∧
      alookup "Health Issues Risk" demoState.label_encoders =
        some ["High", "Low", "Moderate"] ∧
      "Low" ∈ ["High", "Low", "Moderate"]) ∧
    alookup "Family_Compatibility_Score"
        (createDerivedFeatures demoState
          (exampleEncodedRow ["Large", "Medium", "Small"]
            ["No", "With Training", "Yes"] ["High", "Low", "Moderate"]
            ["High", "Low", "Moderate"])) = some (.num (19/10)) :=
  ⟨⟨by decide, by decide, by decide, by decide, by decide, by decide,
      by decide, by decide⟩,
    (c1_derived_features_exact demoState ["Large", "Medium", "Small"]
      ["No", "With Training", "Yes"] ["High", "Low", "Moderate"]
      ["High", "Low", "Moderate"] (by decide) (by decide) (by decide)
      (by decide) (by decide) (by decide) (by decide) (by decide)).1⟩

/-- **C6.** For every input missing at least one required feature column,
`predict` fails with a `MissingFeatureError` naming the missing column(s),
and this validation failure is detected before any model capability is
invoked (the capability trace is empty). -/
theorem c6_missing_feature_error (s : PredictorState) (input : Row) (tk : ℤ)
    (h : s.feature_columns.filter (fun c => (alookup c input).isNone) ≠ []) :
    predict s input tk =
      (.error (.missingFeature
        (s.feature_columns.filter (fun c => (alookup c input).isNone))), []) :=
  predict_missing s input tk h

/-- Witness for **C6**: the demo row without `Size`. -/
theorem c6_missing_feature_error_witness :
    demoState.feature_columns.filter
        (fun c => (alookup c demoRowMissingAndBad).isNone) ≠ [] ∧
    predict demoState demoRowMissingAndBad 2 =
      (.error (.missingFeature
        (demoState.feature_columns.filter
          (fun c => (alookup c demoRowMissingAndBad).isNone))), []) :=
  ⟨by decide, c6_missing_feature_error demoState demoRowMissingAndBad 2
    (by decide)⟩

/-- **C4.** On the request path, `top_k` equal to `0` or negative is
rejected by the route before any model capability is invoked (error
response, empty capability trace); a `top_k` larger than the catalog size
is silently clamped inside `predict`: the run is identical to one with
`top_k` equal to the catalog size, so clamping never produces an error. -/
theorem c4_topk_reject_and_clamp (s : PredictorState) (body : Row)
    (tk : ℤ) :
    (tk ≤ 0 → recommendBreeds s body tk = (.error .badTopK, [])) ∧
    ((s.breed_names.length : ℤ) < tk →
      predict s body tk = predict s body (s.breed_names.length : ℤ)) := by
  constructor
  · intro h
    unfold recommendBreeds
    rw [if_pos h]
  · intro h
    exact predict_clamped s body (le_of_lt h)

/-- Witness for **C4**: `top_k = -1` is rejected; `top_k = 30` behaves
exactly like `top_k = 2` (the demo catalog size). -/
theorem c4_topk_reject_and_clamp_witness :
    ((-1 : ℤ) ≤ 0 ∧
      recommendBreeds demoState demoRow (-1) = (.error .badTopK, [])) ∧
    ((demoState.breed_names.length : ℤ) < 30 ∧
      predict demoState demoRow 30 =
        predict demoState demoRow (demoState.breed_names.length : ℤ)) :=
  ⟨⟨by decide, (c4_topk_reject_and_clamp demoState demoRow (-1)).1
      (by decide)⟩,
    ⟨by decide, (c4_topk_reject_and_clamp demoState demoRow 30).2
      (by decide)⟩⟩

/-- **C8.** The scaling stage applies the pre-fitted median/IQR transform
to exactly the columns designated `numeric_columns` by the schema, and
every other column of the (aligned) row keeps the value it had before
scaling. -/
theorem c8_scaling_frame (s : PredictorState) (row : Row) (c : String) :
    (c ∈ s.numeric_columns →
      alookup c (scaleStage s row) =
        (alookup c row).map (fun v => Value.num (robustTransform s c v.toQD))) ∧
    (c ∉ s.numeric_columns →
      alookup c (scaleStage s row) = alookup c row) := by
  constructor
  · intro h
    rw [scaleStage_lookup, if_pos h]
  · intro h
    rw [scaleStage_lookup, if_neg h]

/-- Witness for **C8** on the demo state: a numeric column is transformed,
a non-numeric column of the aligned row passes through unchanged. -/
theorem c8_scaling_frame_witness :
    ("Exercise Requirements (hrs/day)" ∈ demoState.numeric_columns ∧
      alookup "Exercise Requirements (hrs/day)"
          (scaleStage demoState demoRow) =
        (alookup "Exercise Requirements (hrs/day)" demoRow).map
          (fun v => Value.num
            (robustTransform demoState "Exercise Requirements (hrs/day)"
              v.toQD))) ∧
    ("Size" ∉ demoState.numeric_columns ∧
      alookup "Size" (scaleStage demoState demoRow) =
        alookup "Size" demoRow) :=
  ⟨⟨by decide, (c8_scaling_frame demoState demoRow
      "Exercise Requirements (hrs/day)").1 (by decide)⟩,
    ⟨by decide, (c8_scaling_frame demoState demoRow "Size").2 (by decide)⟩⟩

/-- **C5 (counterexample).** The claim quantifies over *every* input
containing an out-of-vocabulary categorical value; but when such an input
is also missing a required column, `predict` fails with the
missing-feature error instead of the invalid-category one, because
`_validate_input` runs before the encoding loop.  Here the input's
`Shedding Level` is `Extreme`, outside the vocabulary, yet the reported
error is `MissingFeatureError` for `Size`. -/
theorem c5_invalid_category_counterexample :
    "Shedding Level" ∈ demoState.categorical_columns ∧
    alookup "Shedding Level" demoRowMissingAndBad = some (.str "Extreme") ∧
    alookup "Shedding Level" demoState.label_encoders =
      some ["High", "Low", "Moderate"] ∧
    "Extreme" ∉ ["High", "Low", "Moderate"] ∧
    predict demoState demoRowMissingAndBad 2 =
      (.error (.missingFeature ["Size"]), []) := by
  refine ⟨by decide, by decide, by decide, by decide, ?_⟩
  have h := c6_missing_feature_error demoState demoRowMissingAndBad 2
    (by decide)
  have hf : demoState.feature_columns.filter
      (fun c => (alookup c demoRowMissingAndBad).isNone) = ["Size"] := by
    decide
  rw [hf] at h
  exact h

/-- **C5 (amended).** For every input that passes presence and
numeric-type validation and contains a categorical value outside the
fixed vocabulary of its column, `predict` fails with an
`InvalidCategoryError` that carries the full list of allowed values for
that column, and no model capability (classifier or similarity index) is
invoked before this failure (the capability trace is empty). -/
theorem c5_invalid_category_error (s : PredictorState) (input : Row)
    (tk : ℤ)
    (hpresent : s.feature_columns.all
      (fun c => (alookup c input).isSome) = true)
    (hnum : s.numeric_columns.all (fun c =>
      match alookup c input with
      | some v => v.isNum
      | none => true) = true)
    (hcat : s.categorical_columns.all
      (fun c => catOKB s input c || catOffB s input c) = true)
    (hbad : s.categorical_columns.any (fun c => catOffB s input c) = true) :
    ∃ c v classes,
      predict s input tk = (.error (.invalidCategory c v classes), []) ∧
      alookup c s.label_encoders = some classes ∧
      alookup c input = some v ∧ (∀ t, v = .str t → t ∉ classes) := by
  have h1 : ∀ c ∈ s.feature_columns, (alookup c input).isSome = true := by
    rw [List.all_eq_true] at hpresent
    exact fun c hc => hpresent c hc
  have h2 : ∀ c ∈ s.numeric_columns, ∀ v, alookup c input = some v →
      v.isNum = true := by
    rw [List.all_eq_true] at hnum
    intro c hc v hv
    have := hnum c hc
    rw [hv] at this
    exact this
  have hok : ∀ c ∈ s.categorical_columns,
      CatOK s input c ∨ CatOffender s input c := by
    rw [List.all_eq_true] at hcat
    intro c hc
    rcases (Bool.or_eq_true _ _).mp (hcat c hc) with h | h
    · exact Or.inl (catOKB_catOK s input c h)
    · exact Or.inr (catOffB_catOffender s input c h)
  have hex : ∃ c ∈ s.categorical_columns, CatOffender s input c := by
    rw [List.any_eq_true] at hbad
    obtain ⟨c, hc, hoff⟩ := hbad
    exact ⟨c, hc, catOffB_catOffender s input c hoff⟩
  exact predict_invalid_category_aux s input tk h1 h2 hok hex

/-- Witness for **C5 (amended)**: the full example row with
`Shedding Level: Extreme`. -/
theorem c5_invalid_category_error_witness :
    (demoState.feature_columns.all
        (fun c => (alookup c demoRowBadShedding).isSome) = true ∧
      demoState.categorical_columns.any
        (fun c => catOffB demoState demoRowBadShedding c) = true) ∧
    ∃ c v classes,
      predict demoState demoRowBadShedding 2 =
        (.error (.invalidCategory c v classes), []) ∧
      alookup c demoState.label_encoders = some classes ∧
      alookup c demoRowBadShedding = some v ∧
      (∀ t, v = .str t → t ∉ classes) :=
  ⟨⟨by decide, by decide⟩,
    c5_invalid_category_error demoState demoRowBadShedding 2 (by decide)
      (by decide) (by decide) (by decide)⟩

/-- **C9.** For every processed (all-numeric) row, profile synthesis is
total and each of the five summary fields is present in the returned
profile if and only if its source column exists in the row, with
`family_friendly`, `energy_level`, `maintenance_level` rounded to 2
decimals and `intelligence_level`, `size_preference` to 1 decimal.  (The
source wraps the five field computations in one exception handler;
on an all-numeric row no computation can fail, so no field is ever
dropped.) -/
theorem c9_profile_fields (row : Row)
    (h : row.all (fun p => p.2.isNum) = true) :
    (alookup "family_friendly" (calculateUserProfile row) =
        (alookup "Family_Compatibility_Score" row).map
          (fun v => roundTo 2 v.toQD) ∧
      ((alookup "family_friendly" (calculateUserProfile row)).isSome ↔
        (alookup "Family_Compatibility_Score" row).isSome)) ∧
    (alookup "energy_level" (calculateUserProfile row) =
        (alookup "Energy_Score" row).map (fun v => roundTo 2 v.toQD) ∧
      ((alookup "energy_level" (calculateUserProfile row)).isSome ↔
        (alookup "Energy_Score" row).isSome)) ∧
    (alookup "maintenance_level" (calculateUserProfile row) =
        (alookup "Maintenance_Score" row).map (fun v => roundTo 2 v.toQD) ∧
      ((alookup "maintenance_level" (calculateUserProfile row)).isSome ↔
        (alookup "Maintenance_Score" row).isSome)) ∧
    (alookup "intelligence_level" (calculateUserProfile row) =
        (alookup "Intelligence Rating (1-10)" row).map
          (fun v => roundTo 1 v.toQD) ∧
      ((alookup "intelligence_level" (calculateUserProfile row)).isSome ↔
        (alookup "Intelligence Rating (1-10)" row).isSome)) ∧
    (alookup "size_preference" (calculateUserProfile row) =
        (alookup "Size_Score" row).map (fun v => roundTo 1 v.toQD) ∧
      ((alookup "size_preference" (calculateUserProfile row)).isSome ↔
        (alookup "Size_Score" row).isSome)) := by
  have h' : ∀ p ∈ row, ∃ q, p.2 = Value.num q := by
    rw [List.all_eq_true] at h
    intro p hp
    have := h p hp
    cases hv : p.2 with
    | num q => exact ⟨q, rfl⟩
    | str t => rw [hv] at this; simp [Value.isNum] at this
  obtain ⟨e1, e2, e3, e4, e5⟩ := calculateUserProfile_spec row h'
  exact ⟨⟨e1, by rw [e1]; simp⟩, ⟨e2, by rw [e2]; simp⟩,
    ⟨e3, by rw [e3]; simp⟩, ⟨e4, by rw [e4]; simp⟩,
    ⟨e5, by rw [e5]; simp⟩⟩

/-- Witness for **C9** on the all-numeric encoded example row (demo
vocabularies). -/
theorem c9_profile_fields_witness :
    ((exampleEncodedRow ["Large", "Medium", "Small"]
        ["No", "With Training", "Yes"] ["High", "Low", "Moderate"]
        ["High", "Low", "Moderate"]).all (fun p => p.2.isNum) = true) ∧
    ((alookup "intelligence_level" (calculateUserProfile
        (exampleEncodedRow ["Large", "Medium", "Small"]
          ["No", "With Training", "Yes"] ["High", "Low", "Moderate"]
          ["High", "Low", "Moderate"])) =
      (alookup "Intelligence Rating (1-10)"
        (exampleEncodedRow ["Large", "Medium", "Small"]
          ["No", "With Training", "Yes"] ["High", "Low", "Moderate"]
          ["High", "Low", "Moderate"])).map (fun v => roundTo 1 v.toQD)) ∧
      ((alookup "family_friendly" (calculateUserProfile
          (exampleEncodedRow ["Large", "Medium", "Small"]
            ["No", "With Training", "Yes"] ["High", "Low", "Moderate"]
            ["High", "Low", "Moderate"]))).isSome ↔
        (alookup "Family_Compatibility_Score"
          (exampleEncodedRow ["Large", "Medium", "Small"]
            ["No", "With Training", "Yes"] ["High", "Low", "Moderate"]
            ["High", "Low", "Moderate"])).isSome)) :=
  ⟨by decide,
    (c9_profile_fields _ (by decide)).2.2.2.1.1,
    (c9_profile_fields _ (by decide)).1.2⟩

theorem findSimilarBreeds_trace (s : PredictorState) (row : Row) (k : ℕ) :
    (findSimilarBreeds s row k).2 = [Capability.knnQuery] := rfl

theorem generateGroupPredictions_trace_count (s : PredictorState) (row : Row)
    (k : ℕ) :
    ((generateGroupPredictions s row k).2).count Capability.knnQuery = 0 := by
  unfold generateGroupPredictions
  by_cases hsp : s.supports_proba
  · simp [hsp]
  · simp [hsp]

/-- **C10.** For every valid input and every `k`, a successful `predict`
result has `predictions` and `similar_breeds` fields that are the
identical breed-suggestion list, and the similarity index was queried
exactly once (both fields come from that single query). -/
theorem c10_predictions_eq_similar (s : PredictorState) (input : Row)
    (tk : ℤ) (r : PredictResult) (tr : List Capability)
    (h : predict s input tk = (.ok r, tr)) :
    r.predictions = r.similar_breeds ∧ tr.count .knnQuery = 1 := by
  unfold predict at h
  cases hval : validateInput s input with
  | error e => rw [hval] at h; simp at h
  | ok u =>
    rw [hval] at h
    cases henc : encodeCategoricals s input s.categorical_columns input with
    | error e => rw [henc] at h; simp at h
    | ok enc =>
      rw [henc] at h
      rw [Prod.mk.injEq] at h
      obtain ⟨h1, h2⟩ := h
      have hX := Except.ok.inj h1
      subst hX
      subst h2
      refine ⟨rfl, ?_⟩
      rw [List.count_append, findSimilarBreeds_trace,
        generateGroupPredictions_trace_count]
      rfl

/-- Witness for **C10**: the concrete demo run. -/
theorem c10_predictions_eq_similar_witness :
    predict demoState demoRow 2 = (.ok demoRes, demoPred.2) ∧
    (demoRes.predictions = demoRes.similar_breeds ∧
      demoPred.2.count .knnQuery = 1) := by
  have h : predict demoState demoRow 2 = (.ok demoRes, demoPred.2) := by
    with_unfolding_all rfl
  exact ⟨h, c10_predictions_eq_similar demoState demoRow 2 demoRes
    demoPred.2 h⟩

/-- **C2.** For every valid input row and every `k` in `[1, n_breeds]`
(with the catalog aligned to the similarity index's rows, which return
ascending non-negative distances), `predict` succeeds and returns exactly
`min(k, n_breeds)` breed suggestions, sorted by non-increasing similarity,
with 1-based rank assigned in the index's return order and each similarity
a 3-decimal rounding. -/
theorem c2_suggestion_count_order (s : PredictorState) (input : Row)
    (tk : ℤ) (hv : validInputB s input = true)
    (hk1 : 1 ≤ tk) (hk2 : tk ≤ (s.breed_names.length : ℤ))
    (hcat : s.n_rows = s.breed_names.length)
    (hlen : ∀ row n, (s.knn row n).length = min n s.n_rows)
    (hsort : ∀ row n, ((s.knn row n).map Prod.fst).Pairwise (· ≤ ·))
    (hnn : ∀ row n, ∀ p ∈ s.knn row n, 0 ≤ p.1) :
    ∃ r tr, predict s input tk = (.ok r, tr) ∧
      r.similar_breeds.length = min tk.toNat s.breed_names.length ∧
      (r.similar_breeds.map Suggestion.similarity).Pairwise (· ≥ ·) ∧
      r.similar_breeds.map Suggestion.rank =
        List.range' 1 r.similar_breeds.length ∧
      (∀ sg ∈ r.similar_breeds, ∃ x, sg.similarity = roundTo 3 x) := by
  obtain ⟨enc, henc, hpred⟩ := predict_of_valid s input tk hv
  rw [clampK_of_between s hk1 hk2] at hpred
  set df := scaleStage s
    (reindexRow (createDerivedFeatures s enc) (expectedColumns s)) with hdf
  obtain ⟨hL, hS, hR, hround, _, _, _⟩ :=
    findSimilarBreeds_spec s df tk.toNat
      (hlen df (min tk.toNat s.n_rows)) (hsort df (min tk.toNat s.n_rows))
      (hnn df (min tk.toNat s.n_rows))
  refine ⟨_, _, hpred, ?_, ?_, ?_, ?_⟩
  · show (findSimilarBreeds s df tk.toNat).1.length = _
    rw [hL, hcat]
  · exact hS
  · show (findSimilarBreeds s df tk.toNat).1.map Suggestion.rank =
      List.range' 1 (findSimilarBreeds s df tk.toNat).1.length
    rw [hR, hL]
  · exact hround

/-- **C3.** For every valid input, whenever the breed-suggestion list
returned by `predict` is non-empty, the rank-1 suggestion has similarity
exactly `1.0` (each suggestion's similarity being the raw `1/(1+distance)`
normalised by the maximum raw similarity of the returned results); the
list is empty exactly when the similarity index has no rows to return. -/
theorem c3_top_similarity_one (s : PredictorState) (input : Row) (tk : ℤ)
    (hv : validInputB s input = true)
    (hlen : ∀ row n, (s.knn row n).length = min n s.n_rows)
    (hsort : ∀ row n, ((s.knn row n).map Prod.fst).Pairwise (· ≤ ·))
    (hnn : ∀ row n, ∀ p ∈ s.knn row n, 0 ≤ p.1) :
    ∃ r tr, predict s input tk = (.ok r, tr) ∧
      (r.similar_breeds = [] ↔ s.n_rows = 0) ∧
      (∀ sg tail, r.similar_breeds = sg :: tail →
        sg.rank = 1 ∧ sg.similarity = 1) := by
  obtain ⟨enc, henc, hpred⟩ := predict_of_valid s input tk hv
  set k := clampK s tk with hkk
  set df := scaleStage s
    (reindexRow (createDerivedFeatures s enc) (expectedColumns s)) with hdf
  obtain ⟨hL, _, _, _, hEmp, hHead, _⟩ :=
    findSimilarBreeds_spec s df k
      (hlen df (min k s.n_rows)) (hsort df (min k s.n_rows))
      (hnn df (min k s.n_rows))
  refine ⟨_, _, hpred, ?_, ?_⟩
  · show (findSimilarBreeds s df k).1 = [] ↔ s.n_rows = 0
    rw [hEmp]
    have hkl := hlen df (min k s.n_rows)
    have hk1 : 1 ≤ k := clampK_pos s tk
    constructor
    · intro h
      rw [h] at hkl
      simp at hkl
      omega
    · intro h
      have : (s.knn df (min k s.n_rows)).length = 0 := by rw [hkl]; omega
      exact List.length_eq_zero.mp this
  · exact hHead

/-- **C7 (counterexample).** The claim says probability ties are broken by
the classifier's native label order.  The source computes
`np.argsort(probas)[::-1][:top_k]`: reversing an ascending argsort puts
ties in the REVERSE of native order.  On the demo state the two groups
`A`, `B` (native order) have equal probability `1/2`, yet the grouped
predictions rank `B` first. -/
theorem c7_tie_break_counterexample :
    demoState.clf_classes = ["A", "B"] ∧
    demoPred.1 = .ok demoRes ∧
    demoRes.predictions_grouped.map GroupPred.group = ["B", "A"] ∧
    demoRes.predictions_grouped.map GroupPred.score = [1/2, 1/2] ∧
    demoRes.predictions_grouped.map GroupPred.rank = [1, 2] := by
  refine ⟨by decide, by with_unfolding_all rfl, ?_, ?_, ?_⟩ <;>
    with_unfolding_all decide

/-- **C7 (amended).** For every valid input (classifier supporting
probabilities in `[0,1]`, `k` in `[1, n_breeds]`), the grouped predictions
are the `k` highest-probability group labels of the classifier's output
`probas` on the processed row (`probas` is pinned by the two defining
equations: the encoded row, and `probas = clf_proba` of its
derived/aligned/scaled form), sorted by non-increasing probability with
ties broken by the REVERSE of the classifier's native label order,
1-based rank assigned in that order, each score a 4-decimal rounding
lying in `[0,1]`. -/
theorem c7_grouped_ranking (s : PredictorState) (input : Row) (tk : ℤ)
    (hv : validInputB s input = true)
    (hk1 : 1 ≤ tk) (hk2 : tk ≤ (s.breed_names.length : ℤ))
    (hsp : s.supports_proba = true)
    (hp : ∀ row, ∀ p ∈ s.clf_proba row, 0 ≤ p ∧ p ≤ 1) :
    ∃ r tr enc probas,
      encodeCategoricals s input s.categorical_columns input = .ok enc ∧
      probas = s.clf_proba (scaleStage s
        (reindexRow (createDerivedFeatures s enc) (expectedColumns s))) ∧
      predict s input tk = (.ok r, tr) ∧
      (r.predictions_grouped.map GroupPred.score).Pairwise (· ≥ ·) ∧
      r.predictions_grouped.map GroupPred.rank =
        List.range' 1 r.predictions_grouped.length ∧
      (∀ g ∈ r.predictions_grouped, 0 ≤ g.score ∧ g.score ≤ 1) ∧
      r.predictions_grouped.length = min tk.toNat probas.length ∧
      ∃ idxs,
        r.predictions_grouped = buildGroupPreds s probas 1 idxs ∧
        idxs.Pairwise (fun a b =>
          probas.getD b 0 < probas.getD a 0 ∨
            (probas.getD a 0 = probas.getD b 0 ∧ b < a)) ∧
        (∀ a ∈ idxs, ∀ j, j < probas.length → j ∉ idxs →
          probas.getD j 0 ≤ probas.getD a 0) := by
  obtain ⟨enc, henc, hpred⟩ := predict_of_valid s input tk hv
  rw [clampK_of_between s hk1 hk2] at hpred
  set df := scaleStage s
    (reindexRow (createDerivedFeatures s enc) (expectedColumns s)) with hdf
  obtain ⟨_, hL, hS, hR, hB, idxs, hgp, hilen, hstrict, hbest⟩ :=
    generateGroupPredictions_spec s df tk.toNat hsp (hp df)
  refine ⟨_, _, enc, s.clf_proba df, henc, by rw [hdf], hpred, ?_, ?_, ?_,
    ?_, idxs, ?_, hstrict, hbest⟩
  · exact hS
  · show (generateGroupPredictions s df tk.toNat).1.map GroupPred.rank =
      List.range' 1 (generateGroupPredictions s df tk.toNat).1.length
    rw [hR, hL]
  · exact hB
  · show (generateGroupPredictions s df tk.toNat).1.length = _
    rw [hL]
  · exact hgp

theorem demoState_knn_len :
    ∀ (row : Row) (n : ℕ),
      (demoState.knn row n).length = min n demoState.n_rows := by
  intro row n
  rcases n with _ | _ | n <;> simp [demoState]

theorem demoState_knn_sorted :
    ∀ (row : Row) (n : ℕ),
      ((demoState.knn row n).map Prod.fst).Pairwise (· ≤ ·) := by
  intro row n
  rcases n with _ | _ | n <;>
    simp [demoState, List.pairwise_cons]

theorem demoState_knn_nonneg :
    ∀ (row : Row) (n : ℕ), ∀ p ∈ demoState.knn row n, 0 ≤ p.1 := by
  intro row n p hp
  rcases n with _ | _ | n <;> simp [demoState] at hp
  · subst hp
    norm_num
  · rcases hp with hp | hp <;> subst hp <;> norm_num

theorem demoState_clf_bounds :
    ∀ (row : Row), ∀ p ∈ demoState.clf_proba row, 0 ≤ p ∧ p ≤ 1 := by
  intro row p hp
  simp [demoState] at hp
  subst hp
  norm_num

/-- Witness for **C2** at the demo state with `k = 2`. -/
theorem c2_suggestion_count_order_witness :
    (validInputB demoState demoRow = true ∧ (1 : ℤ) ≤ 2 ∧
      (2 : ℤ) ≤ (demoState.breed_names.length : ℤ) ∧
      demoState.n_rows = demoState.breed_names.length) ∧
    ∃ r tr, predict demoState demoRow 2 = (.ok r, tr) ∧
      r.similar_breeds.length =
        min (2 : ℤ).toNat demoState.breed_names.length ∧
      (r.similar_breeds.map Suggestion.similarity).Pairwise (· ≥ ·) ∧
      r.similar_breeds.map Suggestion.rank =
        List.range' 1 r.similar_breeds.length ∧
      (∀ sg ∈ r.similar_breeds, ∃ x, sg.similarity = roundTo 3 x) :=
  ⟨⟨by decide, by decide, by decide, by decide⟩,
    c2_suggestion_count_order demoState demoRow 2 (by decide) (by decide)
      (by decide) (by decide) demoState_knn_len demoState_knn_sorted
      demoState_knn_nonneg⟩

/-- Witness for **C3** at the demo state with `k = 2`. -/
theorem c3_top_similarity_one_witness :
    validInputB demoState demoRow = true ∧
    ∃ r tr, predict demoState demoRow 2 = (.ok r, tr) ∧
      (r.similar_breeds = [] ↔ demoState.n_rows = 0) ∧
      (∀ sg tail, r.similar_breeds = sg :: tail →
        sg.rank = 1 ∧ sg.similarity = 1) :=
  ⟨by decide,
    c3_top_similarity_one demoState demoRow 2 (by decide) demoState_knn_len
      demoState_knn_sorted demoState_knn_nonneg⟩

/-- Witness for **C7 (amended)** at the demo state with `k = 2`. -/
theorem c7_grouped_ranking_witness :
    (validInputB demoState demoRow = true ∧
      demoState.supports_proba = true) ∧
    ∃ r tr enc probas,
      encodeCategoricals demoState demoRow demoState.categorical_columns
        demoRow = .ok enc ∧
      probas = demoState.clf_proba (scaleStage demoState
        (reindexRow (createDerivedFeatures demoState enc)
          (expectedColumns demoState))) ∧
      predict demoState demoRow 2 = (.ok r, tr) ∧
      (r.predictions_grouped.map GroupPred.score).Pairwise (· ≥ ·) ∧
      r.predictions_grouped.map GroupPred.rank =
        List.range' 1 r.predictions_grouped.length ∧
      (∀ g ∈ r.predictions_grouped, 0 ≤ g.score ∧ g.score ≤ 1) ∧
      r.predictions_grouped.length = min (2 : ℤ).toNat probas.length ∧
      ∃ idxs,
        r.predictions_grouped = buildGroupPreds demoState probas 1 idxs ∧
        idxs.Pairwise (fun a b =>
          probas.getD b 0 < probas.getD a 0 ∨
            (probas.getD a 0 = probas.getD b 0 ∧ b < a)) ∧
        (∀ a ∈ idxs, ∀ j, j < probas.length → j ∉ idxs →
          probas.getD j 0 ≤ probas.getD a 0) :=
  ⟨⟨by decide, by decide⟩,
    c7_grouped_ranking demoState demoRow 2 (by decide) (by decide)
      (by decide) (by decide) demoState_clf_bounds⟩
